import Mathlib

/-!
Verification of the go-filecoin chain syncer (`chain/syncer.go`), the outbound
message queue policy (pinned by `message/policy_test.go`), and the in-memory
journal (`journal` package), over a shallow embedding in Lean.

Conventions of the embedding:
* CIDs, state roots and addresses are `Nat`.
* Byte strings (tickets) and tipset keys are `List Nat`.
* Go `error` results become `Option`/`Except`; external collaborators
  (fetcher, state evaluator, chain selector, message provider) are abstract
  functions returning `Option`, collected in a `Collaborators` record.
* A Go runtime panic (out-of-range slice index) is an explicit constructor
  of the result type.
-/

namespace GoFilecoin

/-- Structure `types.SignedMessage`, restricted to the two fields the syncer
and the message queue policy observe: the sender address (`From`) and the
message `Nonce`. -/
structure SignedMessage where
  sender : Nat
  nonce : Nat
deriving DecidableEq, Repr

/-- Structure `types.Block`, restricted to the fields read by the syncer and
the queue policy: `Cid`, `Parents` (the parent tipset key), `Height`,
`ParentWeight`, `Ticket`, the message list and the (opaque) receipts list
reference. -/
structure Block where
  cid : Nat
  parents : List Nat
  height : Nat
  parentWeight : Nat
  ticket : List Nat
  messages : List SignedMessage
  receipts : Nat
deriving DecidableEq, Repr

/-- Lexicographic order on byte strings (`bytes.Compare` returning `< 0`). -/
def listLt : List Nat → List Nat → Bool
  | [], [] => false
  | [], _ :: _ => true
  | _ :: _, [] => false
  | a :: as, b :: bs => if a < b then true else if b < a then false else listLt as bs

/-- Canonical order among sibling blocks: lexicographic by ticket, ties broken
by CID (`types.TipSet` sorts its blocks this way). -/
def blockBefore (a b : Block) : Bool :=
  listLt a.ticket b.ticket || (a.ticket == b.ticket && a.cid < b.cid)

/-- Insertion step of the canonical block sort. -/
def insertBlock (b : Block) : List Block → List Block
  | [] => [b]
  | c :: cs => if blockBefore b c then b :: c :: cs else c :: insertBlock b cs

/-- Canonical sorting of a tipset's blocks (ticket order, CID tie-break). -/
def sortBlocks : List Block → List Block
  | [] => []
  | b :: bs => insertBlock b (sortBlocks bs)

/-- Type `types.TipSet`: the blocks in canonical order. The empty list is
`types.UndefTipSet`. -/
abbrev TipSet := List Block

/-- Value `types.UndefTipSet`: the absent tipset (parent of genesis). -/
def UndefTipSet : TipSet := []

/-- Method `TipSet.Defined`: true for every tipset except `UndefTipSet`. -/
def TipSet.Defined (ts : TipSet) : Bool := !ts.isEmpty

/-- Insertion into a sorted duplicate-free list of CIDs (`types.TipSetKey`
keeps the constituent block CIDs as a sorted set). -/
def insertSortedCid (n : Nat) : List Nat → List Nat
  | [] => [n]
  | m :: ms => if n < m then n :: m :: ms else if n = m then m :: ms else m :: insertSortedCid n ms

/-- Sorted duplicate-free CID set from a list of CIDs. -/
def sortedCidSet (l : List Nat) : List Nat := l.foldr insertSortedCid []

/-- Method `TipSet.Key`: the sorted set of the tipset's block CIDs. -/
def tipKey (ts : TipSet) : List Nat := sortedCidSet (ts.map Block.cid)

/-- Method `TipSet.Height` (Go returns an error on an undefined tipset):
the shared height of the blocks. -/
def tipHeight (ts : TipSet) : Option Nat := ts.head?.map Block.height

/-- Method `TipSet.Parents` (Go returns an error on an undefined tipset):
the shared parent key of the blocks. -/
def tipParents (ts : TipSet) : Option (List Nat) := ts.head?.map Block.parents

/-- Function `types.NewTipSet`: fails when the input blocks are empty, contain
duplicate CIDs, or disagree on height, parents or parent weight; otherwise
returns the blocks in canonical order. -/
def NewTipSet (blks : List Block) : Option TipSet :=
  match blks with
  | [] => none
  | b0 :: _ =>
    if (blks.map Block.cid).Nodup ∧
        ∀ b ∈ blks, b.height = b0.height ∧ b.parents = b0.parents ∧
          b.parentWeight = b0.parentWeight then
      some (sortBlocks blks)
    else
      none

/-- Structure `chain.TipSetAndState`: a validated tipset together with the
CID of the state root obtained by applying it to its parent state. -/
structure TipSetAndState where
  tipSet : TipSet
  tipSetStateRoot : Nat
deriving DecidableEq, Repr

/-- The chain store (`chain.Store` as consumed through the
`syncerChainReaderWriter` interface): a keyed map from tipset key to
`TipSetAndState` plus the current head key. -/
structure Store where
  entries : List (List Nat × TipSetAndState)
  head : List Nat
deriving DecidableEq, Repr

/-- Keyed insertion into the store's entry list, overwriting an existing
entry with the same key (`PutTipSetAndState` is idempotent). -/
def putEntry (k : List Nat) (v : TipSetAndState) : List (List Nat × TipSetAndState) → List (List Nat × TipSetAndState)
  | [] => [(k, v)]
  | e :: es => if e.1 == k then (k, v) :: es else e :: putEntry k v es

/-- Store lookup of the record for a tipset key. -/
def Store.lookupTsas (s : Store) (k : List Nat) : Option TipSetAndState :=
  (s.entries.find? (fun e => e.1 == k)).map Prod.snd

/-- Method `GetTipSet`. -/
def Store.GetTipSet (s : Store) (k : List Nat) : Option TipSet :=
  (s.lookupTsas k).map TipSetAndState.tipSet

/-- Method `GetTipSetStateRoot`. -/
def Store.GetTipSetStateRoot (s : Store) (k : List Nat) : Option Nat :=
  (s.lookupTsas k).map TipSetAndState.tipSetStateRoot

/-- Method `HasTipSetAndState`. -/
def Store.HasTipSetAndState (s : Store) (k : List Nat) : Bool :=
  (s.lookupTsas k).isSome

/-- Method `PutTipSetAndState`. -/
def Store.PutTipSetAndState (s : Store) (tsas : TipSetAndState) : Store :=
  { s with entries := putEntry (tipKey tsas.tipSet) tsas s.entries }

/-- Method `SetHead`. -/
def Store.SetHead (s : Store) (ts : TipSet) : Store :=
  { s with head := tipKey ts }

/-- Method `GetTipSetAndStatesByParentsAndHeight`: all stored records whose
tipset has the given parent key and height, in store order. -/
def Store.GetTipSetAndStatesByParentsAndHeight (s : Store) (pk : List Nat) (h : Nat) : List TipSetAndState :=
  (s.entries.filter (fun e => tipParents e.2.tipSet == some pk && tipHeight e.2.tipSet == some h)).map Prod.snd

/-- Method `HasTipSetAndStatesWithParentsAndHeight`. -/
def Store.HasTipSetAndStatesWithParentsAndHeight (s : Store) (pk : List Nat) (h : Nat) : Bool :=
  !(s.GetTipSetAndStatesByParentsAndHeight pk h).isEmpty

/-- Candidate selection step of `Syncer.widen` (`syncer.go` lines 333-339):
start from `candidates[0]` and replace the running maximum whenever a
candidate has strictly more blocks. -/
def selectCandidate : List TipSetAndState → TipSet
  | [] => UndefTipSet
  | c0 :: rest =>
    (c0 :: rest).foldl (fun mx c => if c.tipSet.length > mx.length then c.tipSet else mx) c0.tipSet

/-! ## Message queue and policy

The queue (`message/queue.go`) and policy (`message/policy.go`) sources are
not under `src/`; only their tests (`message/policy_test.go`) are. The
definitions below are modelled from the spec (sections 4.F and 8) and checked
against those tests: the expiry convention is the one fixed by the spec's
reference scenario ("stamp strictly less than head minus window is expired
and the entire sender queue is purged on an expired head entry"), which is the
only convention consistent with the tests. -/

/-- Modelled from the spec: a queued message, a pair of the signed message and
the `stamp` (head height at enqueue time) recorded for expiry
(`message.Queued`). -/
structure Queued where
  msg : SignedMessage
  stamp : Nat
deriving DecidableEq, Repr

/-- Modelled from the spec: the outbound message queue (`message.Queue`),
partitioned by sender address; within a partition entries are kept in
ascending nonce order. -/
abbrev Queue := List (Nat × List Queued)

/-- Method `Queue.List`: the pending entries of one sender, in order. -/
def queueListOf (q : Queue) (sender : Nat) : List Queued :=
  ((q.find? (fun e => e.1 == sender)).map Prod.snd).getD []

/-- Replace (or create) the partition of one sender. -/
def setSenderQueue (sender : Nat) (l : List Queued) : Queue → Queue
  | [] => [(sender, l)]
  | e :: es => if e.1 == sender then (sender, l) :: es else e :: setSenderQueue sender l es

/-- Modelled from the spec: `Queue.Enqueue` appends to the sender's partition
and fails if a message with the same or a lower nonce is already queued for
that sender. -/
def Enqueue (q : Queue) (msg : SignedMessage) (stamp : Nat) : Option Queue :=
  let l := queueListOf q msg.sender
  if l.all (fun e => e.msg.nonce < msg.nonce) then
    some (setSenderQueue msg.sender (l ++ [⟨msg, stamp⟩]) q)
  else
    none

/-- The policy's error type. The `nonceMismatch` payload keeps the nonce found
at the head of the sender's queue (`got`) and the nonce of the mined message
the policy tried to remove (`expected`). -/
inductive PolicyError where
  | nonceMismatch (got expected : Nat)
deriving DecidableEq, Repr

/-- Modelled from the spec: the text carried by a `NonceMismatch` error. The
tests pin the substring `"nonce 1, expected 2"` for a queue head with nonce 1
and a mined message with nonce 2, so the head nonce is printed first. -/
def policyErrorText : PolicyError → String
  | .nonceMismatch got expected =>
    "nonce " ++ Nat.repr got ++ ", expected " ++ Nat.repr expected

/-- Modelled from the spec: `Queue.RemoveNext sender expectedNonce` removes
the head of the sender's queue when its nonce equals `expectedNonce`, fails
with `NonceMismatch` when it differs, and reports not-found (no error) when
the sender's queue is empty. -/
def RemoveNext (q : Queue) (sender expectedNonce : Nat) : Except PolicyError (Queue × Bool) :=
  match queueListOf q sender with
  | [] => .ok (q, false)
  | e :: rest =>
    if e.msg.nonce = expectedNonce then
      .ok (setSenderQueue sender rest q, true)
    else
      .error (.nonceMismatch e.msg.nonce expectedNonce)

/-- Per-sender expiry step: clear the partition when its head entry has a
stamp strictly below the threshold. -/
def expireEntry (stamp : Nat) (e : Nat × List Queued) : Nat × List Queued :=
  match e.2 with
  | [] => e
  | h :: _ => if h.stamp < stamp then (e.1, []) else e

/-- Modelled from the spec (reference scenario convention): `ExpireBefore`
clears the entire queue of every sender whose head entry has a stamp strictly
below the threshold; other queues are untouched. -/
def ExpireBefore (q : Queue) (stamp : Nat) : Queue :=
  q.map (expireEntry stamp)

/-- One mined message processed by the policy: consult the head of the queue
for `msg.sender`; remove it on a nonce match, fail on a mismatch, skip when
the sender has nothing queued. -/
def handleMinedMessage (q : Queue) (msg : SignedMessage) : Except PolicyError Queue :=
  match RemoveNext q msg.sender msg.nonce with
  | .error e => .error e
  | .ok (q', _) => .ok q'

/-- All messages of one block, in the block's message-list order. -/
def handleMinedBlock (q : Queue) (b : Block) : Except PolicyError Queue :=
  b.messages.foldlM handleMinedMessage q

/-- All blocks of one tipset, in canonical (ticket) order — the order in which
the tipset's block list is kept. -/
def handleMinedTipSet (q : Queue) (ts : TipSet) : Except PolicyError Queue :=
  ts.foldlM handleMinedBlock q

/-- Maximum height occurring in a chain segment (0 for an empty segment). -/
def maxChainHeight (chain : List TipSet) : Nat :=
  chain.foldl (fun acc ts => max acc ((tipHeight ts).getD 0)) 0

/-- Modelled from the spec: `MessageQueuePolicy.HandleNewHead maxAge old new`.
Nothing happens when `new` is empty or all its tipsets are at height 0;
otherwise the tipsets of `new` are consumed in the given (height-ascending)
order, blocks in canonical ticket order, and finally every sender whose queue
head is older than `maxChainHeight new - maxAge` is purged. The `old` chain
is not consulted (no re-enqueueing on truncation). -/
def HandleNewHead (maxAge : Nat) (oldChain newChain : List TipSet) (q : Queue) :
    Except PolicyError Queue :=
  if newChain.isEmpty || newChain.all (fun ts => tipHeight ts == some 0) then
    .ok q
  else
    match newChain.foldlM handleMinedTipSet q with
    | .error e => .error e
    | .ok q' => .ok (ExpireBefore q' (maxChainHeight newChain - maxAge))

/-! ## The chain syncer (`chain/syncer.go`) -/

/-- Constant `UntrustedChainHeightLimit` (`syncer.go` line 28). -/
def UntrustedChainHeightLimit : Nat := 600

/-- Modelled from the spec: `consensus.AncestorRoundsNeeded`, a
consensus-specified constant whose definition is not under `src/`. Its value
only flows into the abstract `getRecentAncestors` collaborator, so any fixed
value is faithful. -/
def AncestorRoundsNeeded : Nat := 5

/-- Function `ExceedsUntrustedChainLength` (`syncer.go` lines 487-490). -/
def ExceedsUntrustedChainLength (curHeight newHeight : Nat) : Bool :=
  newHeight > curHeight + UntrustedChainHeightLimit

/-- Structure `types.ChainInfo`: the declared remote head key and height (the
peer is irrelevant to the embedded control flow). -/
structure ChainInfo where
  head : List Nat
  height : Nat
deriving DecidableEq, Repr

/-- Typed errors surfaced by the syncer. Constructors with a `Failed` suffix
stand for errors bubbled up unchanged from an external collaborator (the Go
code returns the collaborator's own error value there, which is never one of
the syncer's sentinel errors). -/
inductive SyncError where
  | errChainHasBadTipSet
  | errNewChainTooLong
  | errUnexpectedStoreState
  | storeMissingTipSet
  | storeMissingStateRoot
  | undefinedTipSet
  | fetchFailed
  | loadMessagesFailed
  | loadReceiptsFailed
  | ancestorsFailed
  | weightFailed
  | stateTransitionFailed
  | selectorFailed
  | newTipSetFailed
deriving DecidableEq, Repr

/-- The syncer's external collaborators, as abstract functions. `none` models
the collaborator returning an error. `fetchTipSets` is keyed on the requested
head key and returns the whole fetched sequence in traversal (child-first)
order; the peer, the stop predicate and the status reporter have no effect on
the syncer's store or result. -/
structure Collaborators where
  isHeavier : TipSet → TipSet → Option Nat → Option Nat → Option Bool
  newWeight : TipSet → Option Nat → Option Nat
  runStateTransition : TipSet → List (List SignedMessage) → List (List Nat) →
    List TipSet → Nat → Nat → Option Nat
  loadMessages : List SignedMessage → Option (List SignedMessage)
  loadReceipts : Nat → Option (List Nat)
  getRecentAncestors : TipSet → Int → Option (List TipSet)
  fetchTipSets : List Nat → Option (List TipSet)

/-- The syncer's mutable state: the chain store and the bad-tipset cache
(`badTipSetCache.bad`, a set of tipset keys; the map keyed by
`TipSet.String()` is modelled by the keys themselves). -/
structure SyncerState where
  store : Store
  badTipSets : List (List Nat)
deriving DecidableEq, Repr

/-- Modelled from the spec: `badTipSetCache.AddChain` (its file is not under
`src/`) inserts the key of every tipset of the sequence. -/
def addChain (bad : List (List Nat)) (chain : List TipSet) : List (List Nat) :=
  bad ++ chain.map tipKey

/-- Per-block message and receipt gathering of `syncOne` (`syncer.go` lines
167-182): load each block's messages and receipts in canonical block order,
failing on the first provider error. -/
def gatherMessagesAndReceipts (C : Collaborators) :
    List Block → Except SyncError (List (List SignedMessage) × List (List Nat))
  | [] => .ok ([], [])
  | blk :: rest =>
    match C.loadMessages blk.messages with
    | none => .error .loadMessagesFailed
    | some msgs =>
      match C.loadReceipts blk.receipts with
      | none => .error .loadReceiptsFailed
      | some rcpts =>
        match gatherMessagesAndReceipts C rest with
        | .error e => .error e
        | .ok (ms, rs) => .ok (msgs :: ms, rcpts :: rs)

/-- Method `Syncer.calculateParentWeight` (`syncer.go` lines 247-256): weight
of `parent` from the grandparent's state root, or from `cid.Undef` (`none`)
when the grandparent is undefined. -/
def calculateParentWeight (C : Collaborators) (s : Store) (parent grandParent : TipSet) :
    Except SyncError Nat :=
  if grandParent == UndefTipSet then
    match C.newWeight parent none with
    | none => .error .weightFailed
    | some w => .ok w
  else
    match s.GetTipSetStateRoot (tipKey grandParent) with
    | none => .error .storeMissingStateRoot
    | some gpStRoot =>
      match C.newWeight parent (some gpStRoot) with
      | none => .error .weightFailed
      | some w => .ok w

/-- Method `Syncer.syncOne` (`syncer.go` lines 139-243). Returns the updated
syncer state paired with `some` error when the Go method returns a non-nil
error (the state keeps any store mutation already performed). `logReorg` only
logs and is omitted. -/
def syncOne (C : Collaborators) (st : SyncerState) (grandParent parent next : TipSet) :
    SyncerState × Option SyncError :=
  let priorHeadKey := st.store.head
  if priorHeadKey == tipKey next then (st, none)
  else
    match st.store.GetTipSetStateRoot (tipKey parent) with
    | none => (st, some .storeMissingStateRoot)
    | some stateRoot =>
      match tipHeight next with
      | none => (st, some .undefinedTipSet)
      | some h =>
        match C.getRecentAncestors parent ((h : Int) - (AncestorRoundsNeeded : Int)) with
        | none => (st, some .ancestorsFailed)
        | some ancestors =>
          match gatherMessagesAndReceipts C next with
          | .error e => (st, some e)
          | .ok (nextMessages, nextReceipts) =>
            match calculateParentWeight C st.store parent grandParent with
            | .error e => (st, some e)
            | .ok parentWeight =>
              match C.runStateTransition next nextMessages nextReceipts ancestors parentWeight stateRoot with
              | none => (st, some .stateTransitionFailed)
              | some root =>
                let store1 := st.store.PutTipSetAndState ⟨next, root⟩
                match store1.GetTipSetStateRoot (tipKey parent) with
                | none => ({ st with store := store1 }, some .storeMissingStateRoot)
                | some nextParentStateID =>
                  match store1.GetTipSet priorHeadKey with
                  | none => ({ st with store := store1 }, some .storeMissingTipSet)
                  | some headTipSet =>
                    match tipParents headTipSet with
                    | none => ({ st with store := store1 }, some .undefinedTipSet)
                    | some headParentKey =>
                      match (if headParentKey.isEmpty then some none else
                          (store1.GetTipSetStateRoot headParentKey).map some) with
                      | none => ({ st with store := store1 }, some .storeMissingStateRoot)
                      | some headParentStateID =>
                        match C.isHeavier next headTipSet (some nextParentStateID) headParentStateID with
                        | none => ({ st with store := store1 }, some .selectorFailed)
                        | some heavier =>
                          if heavier then
                            ({ st with store := store1.SetHead next }, none)
                          else
                            ({ st with store := store1 }, none)

/-- Method `Syncer.ancestorsFromStore` (`syncer.go` lines 259-281): the parent
and grandparent tipsets of `ts` read from the store (grandparent is
`UndefTipSet` when the parent is genesis). -/
def ancestorsFromStore (s : Store) (ts : TipSet) : Except SyncError (TipSet × TipSet) :=
  match tipParents ts with
  | none => .error .undefinedTipSet
  | some parentCids =>
    match s.GetTipSet parentCids with
    | none => .error .storeMissingTipSet
    | some parent =>
      match tipParents parent with
      | none => .error .undefinedTipSet
      | some grandParentCids =>
        if grandParentCids.isEmpty then .ok (parent, UndefTipSet)
        else
          match s.GetTipSet grandParentCids with
          | none => .error .storeMissingTipSet
          | some grandParent => .ok (parent, grandParent)

/-- Blocks of the widened tipset before re-validation: the blocks of `ts`
followed by the blocks of the stored maximum not already present, de-duplicated
by CID (`syncer.go` lines 341-355). -/
def dedupUnion (ts mx : TipSet) : List Block :=
  ts ++ mx.filter (fun b => !((ts.map Block.cid).contains b.cid))

/-- Method `Syncer.widen` (`syncer.go` lines 312-367): union of `ts` with the
largest stored tipset sharing its parents and height; `UndefTipSet` when the
store holds no such tipset or the union adds nothing new. -/
def widen (s : Store) (ts : TipSet) : Except SyncError TipSet :=
  match tipParents ts with
  | none => .error .undefinedTipSet
  | some parentSet =>
    match tipHeight ts with
    | none => .error .undefinedTipSet
    | some height =>
      if !(s.HasTipSetAndStatesWithParentsAndHeight parentSet height) then .ok UndefTipSet
      else
        let candidates := s.GetTipSetAndStatesByParentsAndHeight parentSet height
        if candidates.isEmpty then .ok UndefTipSet
        else
          let mx := selectCandidate candidates
          match NewTipSet (dedupUnion ts mx) with
          | none => .error .newTipSetFailed
          | some wts =>
            if tipKey wts == tipKey ts || tipKey wts == tipKey mx then .ok UndefTipSet
            else .ok wts

/-- Outcome of `HandleNewTipSet`: success, a typed error, or the Go runtime
panic raised by indexing `chain[0]` when the fetcher returned no tipsets. -/
inductive SyncResult where
  | ok
  | err (e : SyncError)
  | indexOutOfRange
deriving DecidableEq, Repr

/-- Loop body of `HandleNewTipSet` for the tipsets after the first
(`syncer.go` lines 436-476 with `i > 0`, where the widened tipset of the
iteration is always undefined): sync each tipset in height order, poisoning the
remaining chain in the bad-tipset cache on failure, and advancing the
parent/grandparent pair. -/
def syncTail (C : Collaborators) : TipSet → TipSet → List TipSet → SyncerState →
    SyncerState × SyncResult
  | _, _, [], st => (st, .ok)
  | grandParent, parent, ts :: rest, st =>
    match syncOne C st grandParent parent ts with
    | (st', none) => syncTail C parent ts rest st'
    | (st', some e) =>
      ({ st' with badTipSets := addChain st'.badTipSets (ts :: rest) }, .err e)

/-- Method `Syncer.HandleNewTipSet` (`syncer.go` lines 373-478). The fetched
sequence is reversed into height order; the Go code then indexes `chain[0]`
with no emptiness check, so an empty fetch result is the `indexOutOfRange`
panic. On the first tipset `widen` runs; if the widened tipset is defined it
is synced, and a failure there returns without touching the bad-tipset cache.
The non-widened first tipset is skipped exactly when the widened tipset is
defined and the chain has length 1; every other failure of `syncOne` poisons
the remaining chain. Status reporting and tracing have no observable effect
and are omitted. -/
def HandleNewTipSet (C : Collaborators) (st : SyncerState) (ci : ChainInfo) (trusted : Bool) :
    SyncerState × SyncResult :=
  if st.store.HasTipSetAndState ci.head then (st, .ok)
  else
    match st.store.GetTipSet st.store.head with
    | none => (st, .err .storeMissingTipSet)
    | some curHead =>
      match tipHeight curHead with
      | none => (st, .err .undefinedTipSet)
      | some curHeight =>
        if !trusted && ExceedsUntrustedChainLength curHeight ci.height then
          (st, .err .errNewChainTooLong)
        else
          match C.fetchTipSets ci.head with
          | none => (st, .err .fetchFailed)
          | some fetched =>
            match fetched.reverse with
            | [] => (st, .indexOutOfRange)
            | t0 :: rest =>
              match ancestorsFromStore st.store t0 with
              | .error e => (st, .err e)
              | .ok (parent, grandParent) =>
                match widen st.store t0 with
                | .error e => (st, .err e)
                | .ok wts =>
                  match (if TipSet.Defined wts then syncOne C st grandParent parent wts
                         else (st, none)) with
                  | (st1, some e) => (st1, .err e)
                  | (st1, none) =>
                    if TipSet.Defined wts && rest.isEmpty then
                      syncTail C parent t0 rest st1
                    else
                      match syncOne C st1 grandParent parent t0 with
                      | (st2, some e) =>
                        ({ st2 with badTipSets := addChain st2.badTipSets (t0 :: rest) }, .err e)
                      | (st2, none) => syncTail C parent t0 rest st2

/-! ## In-memory journal (`src/unnamed/part_000`) -/

/-- Values stored in a journal entry's key-value map (`interface` values,
restricted to what the tests use). -/
inductive JValue where
  | str (s : String)
  | num (n : Int)
deriving DecidableEq, Repr

/-- One element of the variadic `kvs` argument of `Writer.Write`: either a
string (a possible key) or some other value. -/
inductive JArg where
  | str (s : String)
  | num (n : Int)
deriving DecidableEq, Repr

/-- Function `extractKeyValues`: turns the variadic argument list into a
key-value list; errors on a dangling field or a non-string key. -/
def extractKeyValues : List JArg → Except String (List (String × JValue))
  | [] => .ok []
  | [_] => .error "dangling field"
  | a :: b :: rest =>
    match a with
    | .num _ => .error "key is not of type string"
    | .str k =>
      match extractKeyValues rest with
      | .error e => .error e
      | .ok out =>
        .ok ((k, match b with | .str s => JValue.str s | .num n => JValue.num n) :: out)

/-- One journal entry (`journal.entry`): a timestamp, an event name and the
extracted key-value pairs. -/
structure MemEntry where
  time : Nat
  event : String
  kvs : List (String × JValue)
deriving DecidableEq, Repr

/-- Structure `journal.MemoryWriter`: the topic and the recorded entries. -/
structure MemoryWriter where
  topic : String
  entries : List MemEntry
deriving DecidableEq, Repr

/-- Structure `journal.MemoryJournal`: the `topics` membership map (modelled
as the list of its keys) and the writers created so far. -/
structure MemoryJournal where
  topics : List String
  writers : List MemoryWriter
deriving DecidableEq, Repr

/-- Function `journal.NewInMemoryJournal`: empty topics map, no writers. -/
def NewInMemoryJournal : MemoryJournal := ⟨[], []⟩

/-- Result of `MemoryJournal.Topic`: either the Go panic on a duplicate topic,
or the index of the (fresh) writer returned to the caller. -/
inductive TopicResult where
  | panicDuplicate
  | ok (writerIdx : Nat)
deriving DecidableEq, Repr

/-- Method `MemoryJournal.Topic`: panics when `topic` is in the topics map,
otherwise appends a fresh writer for the topic — and never inserts into the
topics map. -/
def MemoryJournal.Topic (mj : MemoryJournal) (topic : String) : TopicResult × MemoryJournal :=
  if topic ∈ mj.topics then
    (.panicDuplicate, mj)
  else
    (.ok mj.writers.length, { mj with writers := mj.writers ++ [⟨topic, []⟩] })

/-- Method `MemoryWriter.Write` applied through the journal: appends an entry
to the writer at `idx` (the Go caller holds a pointer to that writer); `none`
models the Go panic when `extractKeyValues` fails, and an out-of-range index
leaves the journal unchanged (unreachable for indices returned by `Topic`). -/
def MemoryJournal.WriteTo (mj : MemoryJournal) (idx : Nat) (time : Nat) (event : String)
    (kvs : List JArg) : Option MemoryJournal :=
  match extractKeyValues kvs with
  | .error _ => none
  | .ok extracted =>
    match mj.writers.get? idx with
    | none => some mj
    | some w =>
      some { mj with
        writers := mj.writers.set idx { w with entries := w.entries ++ [⟨time, event, extracted⟩] } }

/-! ## Derived predicates and concrete scenario data -/

/-- Presence of a key in the store together with a state root (what `Put`
establishes and the store invariant asserts for every stored tipset). -/
def hasStateRoot (s : Store) (k : List Nat) : Bool :=
  (s.GetTipSetStateRoot k).isSome

/-- Store invariant relied on by the syncer: the head key resolves to a stored
record whose tipset is defined (non-empty). -/
def StoreInv (s : Store) : Prop :=
  ∃ tsas, s.lookupTsas s.head = some tsas ∧ tsas.tipSet ≠ []

/-- Specification of how a sync run evolves the chain store. A run may put a
keyed record for a candidate tipset (the fetched chain and the widened
tipset), and may move the head — but only, as `syncOne` does, in the same
step as putting a candidate `ts` distinct from the current head, after the
selector deemed `ts` heavier than `hts`, the tipset the just-put store holds
at the then-current head key. The head therefore ends at the prior head or at
the candidate the sequential `IsHeavier` comparisons selected. -/
inductive SyncEvolution (C : Collaborators) (cand : TipSet → Prop) : Store → Store → Prop
  | refl (s : Store) : SyncEvolution C cand s s
  | put (s m : Store) (tsas : TipSetAndState) :
      SyncEvolution C cand s m → cand tsas.tipSet →
      SyncEvolution C cand s (m.PutTipSetAndState tsas)
  | update (s m : Store) (ts : TipSet) (root : Nat) (hts : TipSet) (aS bS : Option Nat) :
      SyncEvolution C cand s m → cand ts → m.head ≠ tipKey ts →
      (m.PutTipSetAndState ⟨ts, root⟩).GetTipSet m.head = some hts →
      C.isHeavier ts hts aS bS = some true →
      SyncEvolution C cand s ((m.PutTipSetAndState ⟨ts, root⟩).SetHead ts)

/-- Check whether a character list starts with a pattern. -/
def charsStartWith : List Char → List Char → Bool
  | _, [] => true
  | [], _ :: _ => false
  | c :: cs, p :: ps => c == p && charsStartWith cs ps

/-- Check whether a character list contains a pattern as a contiguous run. -/
def charsContain : List Char → List Char → Bool
  | [], pat => charsStartWith [] pat
  | c :: rest, pat => charsStartWith (c :: rest) pat || charsContain rest pat

/-- Substring test on strings (whether `s` contains the literal `pat`). -/
def strContains (s pat : String) : Bool := charsContain s.data pat.data

/-- Scenario data (from `policy_test.go`): Alice is address 0, Bob address 1. -/
def msgA1 : SignedMessage := ⟨0, 1⟩

/-- Alice's message with nonce 2. -/
def msgA2 : SignedMessage := ⟨0, 2⟩

/-- Alice's message with nonce 3. -/
def msgA3 : SignedMessage := ⟨0, 3⟩

/-- Bob's message with nonce 1. -/
def msgB1 : SignedMessage := ⟨1, 1⟩

/-- Queue of the expiry scenario: Alice nonces 1,2,3 at stamps 100,101,102 and
Bob nonce 1 at stamp 200. -/
def queueAB : Queue :=
  [(0, [⟨msgA1, 100⟩, ⟨msgA2, 101⟩, ⟨msgA3, 102⟩]), (1, [⟨msgB1, 200⟩])]

/-- A messageless block at height 110 (the expiry scenario's first new head;
the expiry window is 10). -/
def blockAt110 : Block := ⟨10, [9], 110, 0, [7], [], 0⟩

/-- A messageless block at height 111 (the expiry scenario's second new head). -/
def blockAt111 : Block := ⟨11, [10], 111, 0, [8], [], 0⟩

/-- A block carrying Alice's nonce-2 message while her queue head has nonce 1
(the nonce-mismatch scenario). -/
def blockNonce2 : Block := ⟨12, [9], 101, 0, [7], [msgA2], 0⟩

/-- Queue of the sibling-block scenario: Alice nonces 1,2. -/
def queueA2 : Queue := [(0, [⟨msgA1, 100⟩, ⟨msgA2, 101⟩])]

/-- Sibling block carrying Alice's nonce-1 message, ticket `[1]`, CID 5. -/
def sibBlock1 : Block := ⟨5, [0], 101, 3, [1], [msgA1], 0⟩

/-- Sibling block carrying Alice's nonce-2 message, ticket `[2]`, CID 3 — the
CID order (3 before 5) is the opposite of the ticket order. -/
def sibBlock2 : Block := ⟨3, [0], 101, 3, [2], [msgA2], 0⟩

/-- The same block with its ticket changed to `[0]`, putting the nonce-2
message first in canonical order. -/
def sibBlock2Swapped : Block := ⟨3, [0], 101, 3, [0], [msgA2], 0⟩

/-- The expiry scenario's queue after the height-111 head: Alice's whole
queue purged (her head stamp 100 is below 111 - 10), Bob untouched. -/
def queueABAfter111 : Queue := [(0, []), (1, [⟨msgB1, 200⟩])]

/-- Genesis block of the syncer scenarios. -/
def genesisBlock : Block := ⟨1, [], 0, 0, [0], [], 0⟩

/-- Genesis tipset. -/
def genesisTs : TipSet := [genesisBlock]

/-- A newly fetched block at height 1 on top of genesis. -/
def blockNew : Block := ⟨20, [1], 1, 1, [1], [], 0⟩

/-- A stored sibling of `blockNew` (same parents and height, different CID). -/
def blockSibling : Block := ⟨21, [1], 1, 1, [2], [], 0⟩

/-- Syncer state with genesis (the head) and the sibling tipset stored. -/
def stateWithSibling : SyncerState :=
  ⟨⟨[(tipKey genesisTs, ⟨genesisTs, 50⟩), (tipKey [blockSibling], ⟨[blockSibling], 51⟩)],
    tipKey genesisTs⟩, []⟩

/-- Syncer state with only genesis stored (and head). -/
def stateGenesisOnly : SyncerState :=
  ⟨⟨[(tipKey genesisTs, ⟨genesisTs, 50⟩)], tipKey genesisTs⟩, []⟩

/-- Collaborators for which everything succeeds; the fetcher yields the single
tipset `[blockNew]`. -/
def collabOk : Collaborators :=
  ⟨fun _ _ _ _ => some true, fun _ _ => some 1, fun _ _ _ _ _ _ => some 42,
   fun m => some m, fun _ => some [], fun _ _ => some [], fun _ => some [[blockNew]]⟩

/-- Collaborators whose state evaluator rejects exactly the widened (2-block)
tipset. -/
def collabFailWidened : Collaborators :=
  ⟨fun _ _ _ _ => some true, fun _ _ => some 1,
   fun next _ _ _ _ _ => if next.length > 1 then none else some 42,
   fun m => some m, fun _ => some [], fun _ _ => some [], fun _ => some [[blockNew]]⟩

/-- Collaborators whose state evaluator always rejects. -/
def collabFailEval : Collaborators :=
  ⟨fun _ _ _ _ => some true, fun _ _ => some 1, fun _ _ _ _ _ _ => none,
   fun m => some m, fun _ => some [], fun _ _ => some [], fun _ => some [[blockNew]]⟩

/-- Collaborators whose fetcher returns successfully with no tipsets. -/
def collabEmptyFetch : Collaborators :=
  ⟨fun _ _ _ _ => some true, fun _ _ => some 1, fun _ _ _ _ _ _ => some 1,
   fun m => some m, fun _ => some [], fun _ _ => some [], fun _ => some []⟩

/-- Chain info declaring `[blockNew]` as the remote head at height 1. -/
def ciNew : ChainInfo := ⟨tipKey [blockNew], 1⟩

/-- Store with two stored sibling tipsets of equal block count at the same
parents and height (for the widen tie-break scenario). -/
def storeTiedSiblings : Store :=
  ⟨[(tipKey [blockNew], ⟨[blockNew], 60⟩), (tipKey [blockSibling], ⟨[blockSibling], 61⟩)],
    tipKey [blockNew]⟩

/-! ## Helper lemmas -/

theorem listLt_irrefl (a : List Nat) : listLt a a = false := by
  induction a with
  | nil => rfl
  | cons x xs ih => simp [listLt, ih]

theorem listLt_asymm : ∀ (a b : List Nat), listLt a b = true → listLt b a = false
  | [], [], h => by simp [listLt] at h
  | [], _ :: _, _ => rfl
  | _ :: _, [], h => by simp [listLt] at h
  | a :: as, b :: bs, h => by
    simp only [listLt] at h ⊢
    by_cases hab : a < b
    · rw [if_neg (by omega : ¬ b < a), if_pos hab]
    · by_cases hba : b < a
      · rw [if_neg hab, if_pos hba] at h
        exact absurd h (by simp)
      · have heq : a = b := by omega
        subst heq
        rw [if_neg hab, if_neg hab] at h ⊢
        exact listLt_asymm as bs h

theorem listLt_ne {a b : List Nat} (h : listLt a b = true) : a ≠ b := by
  intro he; subst he; rw [listLt_irrefl] at h; exact Bool.noConfusion h

theorem find?_putEntry (k : List Nat) (v : TipSetAndState) (l : List (List Nat × TipSetAndState))
    (k' : List Nat) :
    (putEntry k v l).find? (fun e => e.1 == k') =
      if k' = k then some (k, v) else l.find? (fun e => e.1 == k') := by
  induction l with
  | nil =>
    by_cases h : k' = k
    · subst h
      rw [if_pos rfl]
      exact List.find?_cons_of_pos _ (by simp)
    · rw [if_neg h]
      show List.find? _ [(k, v)] = List.find? _ []
      rw [List.find?_cons_of_neg _ (by simpa using Ne.symm h), List.find?_nil]
  | cons e es ih =>
    by_cases hek : e.1 = k
    · simp only [putEntry, if_pos (show (e.1 == k) = true by simpa using hek)]
      by_cases h : k' = k
      · subst h
        rw [if_pos rfl]
        exact List.find?_cons_of_pos _ (by simp)
      · rw [if_neg h]
        rw [List.find?_cons_of_neg _ (by simpa using Ne.symm h)]
        rw [List.find?_cons_of_neg _ (by simp [hek, Ne.symm h])]
    · simp only [putEntry, if_neg (show ¬ (e.1 == k) = true by simpa using hek)]
      by_cases hk' : e.1 = k'
      · have hkk : ¬ k' = k := by rw [← hk']; exact fun hc => hek hc
        rw [if_neg hkk]
        rw [List.find?_cons_of_pos _ (by simpa using hk'),
          List.find?_cons_of_pos _ (by simpa using hk')]
      · rw [List.find?_cons_of_neg _ (by simpa using hk'), ih]
        by_cases h : k' = k
        · rw [if_pos h, if_pos h]
        · rw [if_neg h, if_neg h, List.find?_cons_of_neg _ (by simpa using hk')]

theorem lookupTsas_put (s : Store) (tsas : TipSetAndState) (k : List Nat) :
    (s.PutTipSetAndState tsas).lookupTsas k =
      if k = tipKey tsas.tipSet then some tsas else s.lookupTsas k := by
  simp only [Store.lookupTsas, Store.PutTipSetAndState, find?_putEntry]
  by_cases h : k = tipKey tsas.tipSet <;> simp [h]

theorem getRoot_put (s : Store) (tsas : TipSetAndState) (k : List Nat) :
    (s.PutTipSetAndState tsas).GetTipSetStateRoot k =
      if k = tipKey tsas.tipSet then some tsas.tipSetStateRoot else s.GetTipSetStateRoot k := by
  simp only [Store.GetTipSetStateRoot, lookupTsas_put]
  by_cases h : k = tipKey tsas.tipSet <;> simp [h]

theorem hasStateRoot_put_mono (s : Store) (tsas : TipSetAndState) (k : List Nat)
    (h : hasStateRoot s k = true) : hasStateRoot (s.PutTipSetAndState tsas) k = true := by
  simp only [hasStateRoot, getRoot_put] at *
  by_cases hk : k = tipKey tsas.tipSet <;> simp [hk, h]

theorem lookupTsas_setHead (s : Store) (ts : TipSet) (k : List Nat) :
    (s.SetHead ts).lookupTsas k = s.lookupTsas k := rfl

theorem hasStateRoot_setHead (s : Store) (ts : TipSet) (k : List Nat) :
    hasStateRoot (s.SetHead ts) k = hasStateRoot s k := rfl

theorem storeInv_hasStateRoot {s : Store} (h : StoreInv s) :
    hasStateRoot s s.head = true := by
  obtain ⟨tsas, hl, _⟩ := h
  simp [hasStateRoot, Store.GetTipSetStateRoot, hl]

theorem tipHeight_ne_nil {ts : TipSet} {h : Nat} (hh : tipHeight ts = some h) : ts ≠ [] := by
  intro he; subst he; simp [tipHeight] at hh

/-! ## Claim C9: widen's candidate selection takes the first maximal candidate -/

theorem foldCandidates_spec (l : List TipSetAndState) (acc : TipSet) :
    (l.foldl (fun mx c => if c.tipSet.length > mx.length then c.tipSet else mx) acc = acc ∧
      ∀ c ∈ l, c.tipSet.length ≤ acc.length) ∨
    (∃ i, ∃ hi : i < l.length,
      l.foldl (fun mx c => if c.tipSet.length > mx.length then c.tipSet else mx) acc =
        (l.get ⟨i, hi⟩).tipSet ∧
      acc.length < (l.get ⟨i, hi⟩).tipSet.length ∧
      (∀ c ∈ l, c.tipSet.length ≤ (l.get ⟨i, hi⟩).tipSet.length) ∧
      ∀ j, ∀ hj : j < l.length, j < i →
        (l.get ⟨j, hj⟩).tipSet.length < (l.get ⟨i, hi⟩).tipSet.length) := by
  induction l generalizing acc with
  | nil => left; exact ⟨rfl, by simp⟩
  | cons c cs ih =>
    simp only [List.foldl_cons]
    by_cases hc : c.tipSet.length > acc.length
    · rw [if_pos hc]
      rcases ih c.tipSet with ⟨heq, hb⟩ | ⟨i, hi, heq, hgt, hb, hfirst⟩
      · right
        refine ⟨0, by simp, heq, hc, ?_, ?_⟩
        · intro d hd
          rcases List.mem_cons.mp hd with h | h
          · subst h; exact Nat.le_refl _
          · exact hb d h
        · intro j hj hj0; omega
      · right
        refine ⟨i + 1, by simpa using hi, heq, Nat.lt_trans hc hgt, ?_, ?_⟩
        · intro d hd
          rcases List.mem_cons.mp hd with h | h
          · subst h; exact Nat.le_of_lt hgt
          · exact hb d h
        · intro j hj hji
          match j with
          | 0 => exact hgt
          | j + 1 => exact hfirst j (by simpa using hj) (by omega)
    · rw [if_neg hc]
      have hcle : c.tipSet.length ≤ acc.length := Nat.le_of_not_lt hc
      rcases ih acc with ⟨heq, hb⟩ | ⟨i, hi, heq, hgt, hb, hfirst⟩
      · left
        refine ⟨heq, ?_⟩
        intro d hd
        rcases List.mem_cons.mp hd with h | h
        · subst h; exact hcle
        · exact hb d h
      · right
        refine ⟨i + 1, by simpa using hi, heq, hgt, ?_, ?_⟩
        · intro d hd
          rcases List.mem_cons.mp hd with h | h
          · subst h; exact Nat.le_of_lt (Nat.lt_of_le_of_lt hcle hgt)
          · exact hb d h
        · intro j hj hji
          match j with
          | 0 => exact Nat.lt_of_le_of_lt hcle hgt
          | j + 1 => exact hfirst j (by simpa using hj) (by omega)

/-- Claim C9: when several stored candidate tipsets with the same parents and
height tie for the maximal block count, `widen`\'s selection (`selectCandidate`)
returns the first such candidate in the order returned by
`GetTipSetAndStatesByParentsAndHeight`: the selected candidate has maximal
block count and every earlier candidate has strictly fewer blocks, so the
choice is determined by the store\'s list order. -/
theorem widen_selects_first_maximal_candidate (s : Store) (pk : List Nat) (h : Nat)
    (hne : s.GetTipSetAndStatesByParentsAndHeight pk h ≠ []) :
    ∃ i, ∃ hi : i < (s.GetTipSetAndStatesByParentsAndHeight pk h).length,
      selectCandidate (s.GetTipSetAndStatesByParentsAndHeight pk h) =
        ((s.GetTipSetAndStatesByParentsAndHeight pk h).get ⟨i, hi⟩).tipSet ∧
      (∀ d ∈ s.GetTipSetAndStatesByParentsAndHeight pk h,
        d.tipSet.length ≤
          ((s.GetTipSetAndStatesByParentsAndHeight pk h).get ⟨i, hi⟩).tipSet.length) ∧
      ∀ j, ∀ hj : j < (s.GetTipSetAndStatesByParentsAndHeight pk h).length, j < i →
        ((s.GetTipSetAndStatesByParentsAndHeight pk h).get ⟨j, hj⟩).tipSet.length <
          ((s.GetTipSetAndStatesByParentsAndHeight pk h).get ⟨i, hi⟩).tipSet.length := by
  cases hl : s.GetTipSetAndStatesByParentsAndHeight pk h with
  | nil => exact absurd hl hne
  | cons c0 rest =>
    rcases foldCandidates_spec (c0 :: rest) c0.tipSet with ⟨heq, hb⟩ | ⟨i, hi, heq, _, hb, hfirst⟩
    · refine ⟨0, by simp, heq, hb, ?_⟩
      intro j hj hj0; omega
    · exact ⟨i, hi, heq, hb, hfirst⟩

/-- Witness for C9: a store holding two single-block sibling tipsets at the
same parents and height; the selection takes the first of the tied pair. -/
theorem widen_selects_first_maximal_candidate_witness :
    storeTiedSiblings.GetTipSetAndStatesByParentsAndHeight [1] 1 ≠ [] ∧
    (∃ i, ∃ hi : i < (storeTiedSiblings.GetTipSetAndStatesByParentsAndHeight [1] 1).length,
      selectCandidate (storeTiedSiblings.GetTipSetAndStatesByParentsAndHeight [1] 1) =
        ((storeTiedSiblings.GetTipSetAndStatesByParentsAndHeight [1] 1).get ⟨i, hi⟩).tipSet ∧
      (∀ d ∈ storeTiedSiblings.GetTipSetAndStatesByParentsAndHeight [1] 1,
        d.tipSet.length ≤
          ((storeTiedSiblings.GetTipSetAndStatesByParentsAndHeight [1] 1).get ⟨i, hi⟩).tipSet.length) ∧
      ∀ j, ∀ hj : j < (storeTiedSiblings.GetTipSetAndStatesByParentsAndHeight [1] 1).length, j < i →
        ((storeTiedSiblings.GetTipSetAndStatesByParentsAndHeight [1] 1).get ⟨j, hj⟩).tipSet.length <
          ((storeTiedSiblings.GetTipSetAndStatesByParentsAndHeight [1] 1).get ⟨i, hi⟩).tipSet.length) :=
  ⟨by decide, widen_selects_first_maximal_candidate storeTiedSiblings [1] 1 (by decide)⟩

/-! ## Claim C10: the duplicate-topic panic of MemoryJournal.Topic is unreachable -/

theorem topic_preserves_topics (mj : MemoryJournal) (t : String) :
    ((mj.Topic t).2).topics = mj.topics := by
  unfold MemoryJournal.Topic
  split <;> rfl

theorem foldl_topic_topics (calls : List String) :
    (calls.foldl (fun mj tp => (mj.Topic tp).2) NewInMemoryJournal).topics = [] := by
  suffices h : ∀ (mj : MemoryJournal),
      (calls.foldl (fun mj tp => (mj.Topic tp).2) mj).topics = mj.topics by
    simpa [NewInMemoryJournal] using h NewInMemoryJournal
  induction calls with
  | nil => intro mj; rfl
  | cons c cs ih =>
    intro mj
    simp only [List.foldl_cons]
    rw [ih, topic_preserves_topics]

/-- Claim C10: `MemoryJournal.Topic` never panics on a duplicate topic — after
any sequence of `Topic` calls starting from `NewInMemoryJournal` the topics
map is still empty, so the panic branch is unreachable; and calling `Topic`
twice with the same topic string returns two distinct writers (indices 0 and
1) that both record entries through `Write`. -/
theorem memoryJournal_topic_no_panic :
    (∀ (calls : List String) (t : String),
      ((calls.foldl (fun mj tp => (mj.Topic tp).2) NewInMemoryJournal).Topic t).1 ≠
        TopicResult.panicDuplicate) ∧
    (∀ t : String,
      (NewInMemoryJournal.Topic t).1 = TopicResult.ok 0 ∧
      ((NewInMemoryJournal.Topic t).2.Topic t).1 = TopicResult.ok 1 ∧
      ∃ mj1 mj2,
        ((NewInMemoryJournal.Topic t).2.Topic t).2.WriteTo 0 11 "event1" [] = some mj1 ∧
        mj1.WriteTo 1 12 "event2" [] = some mj2 ∧
        mj2.writers.map (fun w => (w.topic, w.entries.length)) = [(t, 1), (t, 1)]) := by
  constructor
  · intro calls t
    have h := foldl_topic_topics calls
    generalize hJ : (calls.foldl (fun mj tp => (mj.Topic tp).2) NewInMemoryJournal) = J at h ⊢
    unfold MemoryJournal.Topic
    rw [h]
    simp
  · intro t
    refine ⟨rfl, rfl, ?_⟩
    refine ⟨_, _, rfl, rfl, ?_⟩
    simp [MemoryJournal.Topic, NewInMemoryJournal, MemoryJournal.WriteTo, extractKeyValues]

/-! ## Message-queue policy lemmas and claims C4, C5, C6 -/

theorem expireBefore_queueListOf (q : Queue) (thr sender : Nat) :
    queueListOf (ExpireBefore q thr) sender =
      match queueListOf q sender with
      | [] => []
      | e :: rest => if e.stamp < thr then [] else e :: rest := by
  induction q with
  | nil => rfl
  | cons p ps ih =>
    have hfst : (expireEntry thr p).1 = p.1 := by
      unfold expireEntry
      split
      · rfl
      · split <;> rfl
    by_cases hs : (p.1 == sender) = true
    · simp only [ExpireBefore, List.map_cons, queueListOf]
      rw [List.find?_cons_of_pos _ (by simpa [hfst] using hs),
        List.find?_cons_of_pos _ (by simpa using hs)]
      cases hp : p.2 with
      | nil => simp [expireEntry, hp]
      | cons h rest =>
        by_cases hst : h.stamp < thr
        · simp [expireEntry, hp, hst]
        · simp [expireEntry, hp, hst]
    · simp only [ExpireBefore, List.map_cons, queueListOf] at ih ⊢
      rw [List.find?_cons_of_neg _ (by simpa [hfst] using hs),
        List.find?_cons_of_neg _ (by simpa using hs)]
      exact ih

theorem expireBefore_zero (q : Queue) : ExpireBefore q 0 = q := by
  induction q with
  | nil => rfl
  | cons p ps ih =>
    simp only [ExpireBefore, List.map_cons] at ih ⊢
    rw [ih]
    cases hp : p.2 <;> simp [expireEntry, hp]

theorem maxChainHeight_all_zero (l : List TipSet)
    (h : l.all (fun ts => tipHeight ts == some 0) = true) : maxChainHeight l = 0 := by
  suffices hs : ∀ acc, (l.foldl (fun acc ts => max acc ((tipHeight ts).getD 0)) acc) = acc by
    exact hs 0
  induction l with
  | nil => intro acc; rfl
  | cons ts tss ih =>
    rw [List.all_cons, Bool.and_eq_true] at h
    intro acc
    simp only [List.foldl_cons]
    have h0 : (tipHeight ts).getD 0 = 0 := by
      have := h.1
      simp only [beq_iff_eq] at this
      rw [this]; rfl
    rw [h0, Nat.max_zero]
    exact ih h.2 acc

/-- Claim C4 (amended): after a successful `HandleNewHead` the expiry
convention is: every remaining non-empty sender queue has a head entry with
stamp at least `maxChainHeight new - expiry_window` (so an entry whose stamp
equals exactly the boundary is retained), and `ExpireBefore` purges the whole
queue of exactly those senders whose head stamp is strictly below the
threshold. -/
theorem handleNewHead_expiry_convention (maxAge : Nat) (oldChain newChain : List TipSet)
    (q q' : Queue) (hok : HandleNewHead maxAge oldChain newChain q = .ok q') :
    (∀ sender e rest, queueListOf q' sender = e :: rest →
      maxChainHeight newChain - maxAge ≤ e.stamp) ∧
    (∀ (qq : Queue) (thr sender : Nat),
      queueListOf (ExpireBefore qq thr) sender =
        match queueListOf qq sender with
        | [] => []
        | e :: rest => if e.stamp < thr then [] else e :: rest) := by
  refine ⟨?_, fun qq thr sender => expireBefore_queueListOf qq thr sender⟩
  intro sender e rest h
  unfold HandleNewHead at hok
  by_cases hguard : (newChain.isEmpty || newChain.all (fun ts => tipHeight ts == some 0)) = true
  · rw [if_pos hguard] at hok
    have hz : maxChainHeight newChain = 0 := by
      rcases Bool.or_eq_true_iff.mp hguard with hg | hg
      · rw [List.isEmpty_iff.mp hg]; rfl
      · exact maxChainHeight_all_zero newChain hg
    rw [hz]
    omega
  · rw [if_neg hguard] at hok
    cases hfold : newChain.foldlM handleMinedTipSet q with
    | error e0 => rw [hfold] at hok; exact absurd hok (by simp)
    | ok q2 =>
      rw [hfold] at hok
      have hq' : q' = ExpireBefore q2 (maxChainHeight newChain - maxAge) := by
        have := hok
        simp only [Except.ok.injEq] at this
        exact this.symm
      rw [hq', expireBefore_queueListOf] at h
      cases hql : queueListOf q2 sender with
      | nil =>
        rw [hql] at h
        exact absurd (show ([] : List Queued) = e :: rest from h) (by simp)
      | cons e0 rest0 =>
        rw [hql] at h
        have h' : (if e0.stamp < maxChainHeight newChain - maxAge then ([] : List Queued)
            else e0 :: rest0) = e :: rest := h
        by_cases hst : e0.stamp < maxChainHeight newChain - maxAge
        · rw [if_pos hst] at h'
          exact absurd h' (by simp)
        · rw [if_neg hst] at h'
          have he : e0 = e := (List.cons.injEq _ _ _ _ ▸ h').1
          subst he
          omega

/-- Witness for C4 (amended): the expiry scenario at height 111 purges Alice's
whole queue and keeps Bob's stamp-200 entry, and the conclusion holds at that
concrete run. -/
theorem handleNewHead_expiry_convention_witness :
    HandleNewHead 10 [] [[blockAt111]] queueAB = .ok queueABAfter111 ∧
    ((∀ sender e rest, queueListOf queueABAfter111 sender = e :: rest →
        maxChainHeight [[blockAt111]] - 10 ≤ e.stamp) ∧
      (∀ (qq : Queue) (thr sender : Nat),
        queueListOf (ExpireBefore qq thr) sender =
          match queueListOf qq sender with
          | [] => []
          | e :: rest => if e.stamp < thr then [] else e :: rest)) :=
  ⟨rfl, handleNewHead_expiry_convention 10 [] [[blockAt111]] queueAB queueABAfter111 rfl⟩

/-- Counterexample to C4 as stated: at the expiry scenario's height-110 head
(window 10) the call succeeds and Alice's stamp-100 entry — whose stamp equals
exactly `110 - 10` — remains queued, so an entry with stamp equal to
`h - expiry_window` is not purged. -/
theorem handleNewHead_boundary_stamp_retained :
    HandleNewHead 10 [] [[blockAt110]] queueAB = .ok queueAB ∧
    (110 : Nat) - 10 = 100 ∧
    queueListOf queueAB 0 = [⟨msgA1, 100⟩, ⟨msgA2, 101⟩, ⟨msgA3, 102⟩] :=
  ⟨rfl, rfl, by decide⟩

/-- Claim C5: `HandleNewHead` visits sibling blocks in canonical ticket order,
not CID order. Generally, a two-block tipset built by `NewTipSet` lists the
lexicographically-smaller-ticket block first regardless of CIDs; concretely,
with CID order opposite to ticket order the policy removes two consecutive
nonces of one sender successfully, and with the tickets swapped (so the
higher nonce comes first canonically) it fails with a `NonceMismatch`. -/
theorem handleNewHead_ticket_order :
    (∀ (b1 b2 : Block) (ts : TipSet), listLt b1.ticket b2.ticket = true →
      NewTipSet [b2, b1] = some ts → ts = [b1, b2]) ∧
    NewTipSet [sibBlock2, sibBlock1] = some [sibBlock1, sibBlock2] ∧
    HandleNewHead 10 [] [[sibBlock1, sibBlock2]] queueA2 = .ok [(0, [])] ∧
    NewTipSet [sibBlock2Swapped, sibBlock1] = some [sibBlock2Swapped, sibBlock1] ∧
    HandleNewHead 10 [] [[sibBlock2Swapped, sibBlock1]] queueA2 =
      .error (.nonceMismatch 1 2) := by
  refine ⟨?_, by decide, rfl, by decide, rfl⟩
  intro b1 b2 ts hlt hts
  have hne : blockBefore b2 b1 = false := by
    simp only [blockBefore]
    rw [listLt_asymm _ _ hlt]
    rw [show (b2.ticket == b1.ticket) = false from
      beq_eq_false_iff_ne.mpr (fun he => (listLt_ne hlt) he.symm)]
    rfl
  simp only [NewTipSet] at hts
  split at hts
  · have h2 : sortBlocks [b2, b1] = ts := by
      injection hts
    rw [← h2]
    simp [sortBlocks, insertBlock, hne]
  · exact absurd hts (by simp)

/-- Witness for C5: the general ticket-order conjunct applied to the concrete
sibling blocks whose CID order is the opposite of their ticket order. -/
theorem handleNewHead_ticket_order_witness :
    listLt sibBlock1.ticket sibBlock2.ticket = true ∧
    NewTipSet [sibBlock2, sibBlock1] = some [sibBlock1, sibBlock2] ∧
    ([sibBlock1, sibBlock2] : TipSet) = [sibBlock1, sibBlock2] :=
  ⟨by decide, by decide,
    handleNewHead_ticket_order.1 sibBlock1 sibBlock2 [sibBlock1, sibBlock2] (by decide) (by decide)⟩

theorem maxChainHeight_single (b : Block) : maxChainHeight [[b]] = b.height := by
  simp [maxChainHeight, tipHeight]

theorem handleNewHead_single_message (maxAge : Nat) (q : Queue) (msg : SignedMessage)
    (b : Block) (hmsgs : b.messages = [msg]) (hpos : 0 < b.height) :
    HandleNewHead maxAge [] [[b]] q =
      match RemoveNext q msg.sender msg.nonce with
      | .error e => .error e
      | .ok (q', _) => .ok (ExpireBefore q' (b.height - maxAge)) := by
  have hguard : (([[b]] : List TipSet).isEmpty ||
      ([[b]] : List TipSet).all (fun ts => tipHeight ts == some 0)) = false := by
    simp [tipHeight]
    omega
  have hfold : ([[b]] : List TipSet).foldlM handleMinedTipSet q = handleMinedMessage q msg := by
    simp only [List.foldlM, handleMinedTipSet, handleMinedBlock, hmsgs]
    cases hmm : handleMinedMessage q msg <;> rfl
  unfold HandleNewHead
  rw [hguard, if_neg (by simp), hfold]
  unfold handleMinedMessage
  rw [maxChainHeight_single]
  cases hrm : RemoveNext q msg.sender msg.nonce with
  | error e => rfl
  | ok p =>
    obtain ⟨q1, flag⟩ := p
    rfl

/-- Claim C6 (amended): for a mined message whose sender's queue is non-empty,
`HandleNewHead` removes the head entry when the nonces agree, and fails with a
`NonceMismatch` whose text is `"nonce N, expected M"` with `N` the nonce at
the head of the sender's queue and `M` the nonce of the mined message (the
opposite of the claim's reading); an empty sender queue is skipped without
error. Stated for a single-block head whose height is positive (so the
genesis no-op rule does not fire) and at most the expiry window (so expiry
does not alter the queues). -/
theorem handleNewHead_nonce_rule (maxAge : Nat) (q : Queue) (msg : SignedMessage) (b : Block)
    (hmsgs : b.messages = [msg]) (hpos : 0 < b.height) (hage : b.height ≤ maxAge) :
    (queueListOf q msg.sender = [] → HandleNewHead maxAge [] [[b]] q = .ok q) ∧
    (∀ e rest, queueListOf q msg.sender = e :: rest → e.msg.nonce = msg.nonce →
      HandleNewHead maxAge [] [[b]] q = .ok (setSenderQueue msg.sender rest q)) ∧
    (∀ e rest, queueListOf q msg.sender = e :: rest → e.msg.nonce ≠ msg.nonce →
      HandleNewHead maxAge [] [[b]] q = .error (.nonceMismatch e.msg.nonce msg.nonce) ∧
      policyErrorText (.nonceMismatch e.msg.nonce msg.nonce) =
        "nonce " ++ Nat.repr e.msg.nonce ++ ", expected " ++ Nat.repr msg.nonce) := by
  have hz : b.height - maxAge = 0 := Nat.sub_eq_zero_of_le hage
  have hmain := handleNewHead_single_message maxAge q msg b hmsgs hpos
  refine ⟨?_, ?_, ?_⟩
  · intro hq
    have hrm : RemoveNext q msg.sender msg.nonce = .ok (q, false) := by
      unfold RemoveNext
      rw [hq]
    rw [hmain, hrm, hz]
    show Except.ok (ExpireBefore q 0) = Except.ok q
    rw [expireBefore_zero]
  · intro e rest hq hn
    have hrm : RemoveNext q msg.sender msg.nonce =
        .ok (setSenderQueue msg.sender rest q, true) := by
      unfold RemoveNext
      rw [hq]
      show (if e.msg.nonce = msg.nonce then
          Except.ok (setSenderQueue msg.sender rest q, true)
        else Except.error (PolicyError.nonceMismatch e.msg.nonce msg.nonce)) = _
      rw [if_pos hn]
    rw [hmain, hrm, hz]
    show Except.ok (ExpireBefore (setSenderQueue msg.sender rest q) 0) = _
    rw [expireBefore_zero]
  · intro e rest hq hn
    have hrm : RemoveNext q msg.sender msg.nonce =
        .error (.nonceMismatch e.msg.nonce msg.nonce) := by
      unfold RemoveNext
      rw [hq]
      show (if e.msg.nonce = msg.nonce then
          Except.ok (setSenderQueue msg.sender rest q, true)
        else Except.error (PolicyError.nonceMismatch e.msg.nonce msg.nonce)) = _
      rw [if_neg hn]
    refine ⟨?_, rfl⟩
    rw [hmain, hrm]

/-- Witness for C6 (amended): the nonce-mismatch branch at the concrete
scenario (Alice's queue heads with nonce 1, the block carries her nonce-2
message). -/
theorem handleNewHead_nonce_rule_witness :
    blockNonce2.messages = [msgA2] ∧ 0 < blockNonce2.height ∧ blockNonce2.height ≤ 101 ∧
    HandleNewHead 101 [] [[blockNonce2]] queueAB = .error (.nonceMismatch 1 2) ∧
    policyErrorText (.nonceMismatch 1 2) = "nonce " ++ Nat.repr 1 ++ ", expected " ++ Nat.repr 2 :=
  ⟨rfl, by decide, by decide,
    ((handleNewHead_nonce_rule 101 queueAB msgA2 blockNonce2 rfl (by decide) (by decide)).2.2
      ⟨msgA1, 100⟩ [⟨msgA2, 101⟩, ⟨msgA3, 102⟩] rfl (by decide)).1,
    ((handleNewHead_nonce_rule 101 queueAB msgA2 blockNonce2 rfl (by decide) (by decide)).2.2
      ⟨msgA1, 100⟩ [⟨msgA2, 101⟩, ⟨msgA3, 102⟩] rfl (by decide)).2⟩

/-- Counterexample to C6 as stated: in the out-of-nonce-order scenario the
error text is `"nonce 1, expected 2"` — nonce 1 is the queue head's nonce and
2 the mined message's nonce — and the text the claim prescribes
(`"nonce 2, expected 1"`, mined nonce first) does not occur in it. -/
theorem nonceMismatch_text_order :
    HandleNewHead 10 [] [[blockNonce2]] queueAB = .error (.nonceMismatch 1 2) ∧
    policyErrorText (.nonceMismatch 1 2) = "nonce 1, expected 2" ∧
    strContains (policyErrorText (.nonceMismatch 1 2)) "nonce 2, expected 1" = false ∧
    strContains (policyErrorText (.nonceMismatch 1 2)) "nonce 1, expected 2" = true :=
  ⟨rfl, rfl, by decide, by decide⟩

/-! ## Syncer lemmas -/

theorem syncOne_badTipSets (C : Collaborators) (st : SyncerState) (gp p next : TipSet) :
    (syncOne C st gp p next).1.badTipSets = st.badTipSets := by
  simp only [syncOne]
  repeat' split
  all_goals rfl

theorem gather_err_not_sentinel (C : Collaborators) :
    ∀ (l : List Block) (e : SyncError), gatherMessagesAndReceipts C l = .error e →
      e ≠ SyncError.errNewChainTooLong ∧ e ≠ SyncError.errChainHasBadTipSet := by
  intro l
  induction l with
  | nil =>
    intro e h
    exact absurd h (by simp [gatherMessagesAndReceipts])
  | cons blk rest ih =>
    intro e h
    simp only [gatherMessagesAndReceipts] at h
    repeat' split at h
    all_goals first
      | exact Except.noConfusion h
      | (obtain rfl := (Except.error.inj h).symm
         first
           | exact ⟨by decide, by decide⟩
           | exact ih _ (by assumption))

theorem calculateParentWeight_err_not_sentinel (C : Collaborators) (s : Store)
    (parent grandParent : TipSet) (e : SyncError) :
    calculateParentWeight C s parent grandParent = .error e →
    e ≠ SyncError.errNewChainTooLong ∧ e ≠ SyncError.errChainHasBadTipSet := by
  simp only [calculateParentWeight]
  repeat' split
  all_goals intro h
  all_goals first
    | exact Except.noConfusion h
    | (obtain rfl := (Except.error.inj h).symm
       exact ⟨by decide, by decide⟩)

theorem syncOne_err_not_sentinel (C : Collaborators) (st : SyncerState) (gp p next : TipSet)
    (e : SyncError) :
    (syncOne C st gp p next).2 = some e →
    e ≠ SyncError.errNewChainTooLong ∧ e ≠ SyncError.errChainHasBadTipSet := by
  simp only [syncOne]
  repeat' split
  all_goals intro h
  all_goals first
    | exact Option.noConfusion h
    | (obtain rfl := (Option.some.inj h).symm
       first
         | exact ⟨by decide, by decide⟩
         | exact gather_err_not_sentinel C next _ (by assumption)
         | exact calculateParentWeight_err_not_sentinel C st.store p gp _ (by assumption))

theorem syncOne_ok_spec (C : Collaborators) (st : SyncerState) (gp p next : TipSet) :
    (syncOne C st gp p next).2 = none →
    ((∀ k, hasStateRoot st.store k = true →
        hasStateRoot (syncOne C st gp p next).1.store k = true) ∧
      (hasStateRoot (syncOne C st gp p next).1.store (tipKey next) = true ∨
        tipKey next = st.store.head) ∧
      (StoreInv st.store → StoreInv (syncOne C st gp p next).1.store) ∧
      ((syncOne C st gp p next).1.store.head = st.store.head ∨
        ((syncOne C st gp p next).1.store.head = tipKey next ∧
          ∃ hts aS bS, C.isHeavier next hts aS bS = some true))) := by
  simp only [syncOne]
  split
  case isTrue hbeq =>
    intro _
    exact ⟨fun k hk => hk, Or.inr (beq_iff_eq.mp hbeq).symm, fun hI => hI, Or.inl rfl⟩
  case isFalse hbeq =>
    split
    case h_1 => intro h; exact absurd h (by simp)
    case h_2 stateRoot hroot =>
      split
      case h_1 => intro h; exact absurd h (by simp)
      case h_2 hgot hheight =>
        split
        case h_1 => intro h; exact absurd h (by simp)
        case h_2 ancestors hanc =>
          split
          case h_1 => intro h; exact absurd h (by simp)
          case h_2 gathered hgath =>
            split
            case h_1 => intro h; exact absurd h (by simp)
            case h_2 parentWeight hweight =>
              split
              case h_1 => intro h; exact absurd h (by simp)
              case h_2 root hrun =>
                split
                case h_1 => intro h; exact absurd h (by simp)
                case h_2 nextParentStateID hnps =>
                  split
                  case h_1 => intro h; exact absurd h (by simp)
                  case h_2 headTipSet hhts =>
                    split
                    case h_1 => intro h; exact absurd h (by simp)
                    case h_2 headParentKey hhpk =>
                      split
                      case h_1 => intro h; exact absurd h (by simp)
                      case h_2 headParentStateID hhps =>
                        split
                        case h_1 => intro h; exact absurd h (by simp)
                        case h_2 heavier hheavy =>
                          split
                          case isTrue hcond =>
                            intro _
                            constructor
                            · intro k hk
                              rw [hasStateRoot_setHead]
                              exact hasStateRoot_put_mono _ _ _ hk
                            constructor
                            · left
                              rw [hasStateRoot_setHead]
                              simp [hasStateRoot, getRoot_put]
                            constructor
                            · intro _
                              refine ⟨⟨next, root⟩, ?_, ?_⟩
                              · show ((st.store.PutTipSetAndState ⟨next, root⟩).SetHead
                                    next).lookupTsas (tipKey next) = _
                                rw [lookupTsas_setHead, lookupTsas_put, if_pos rfl]
                              · exact tipHeight_ne_nil hheight
                            · right
                              refine ⟨rfl, headTipSet, some nextParentStateID,
                                headParentStateID, ?_⟩
                              rw [← hcond]
                              exact hheavy
                          case isFalse hcond =>
                            intro _
                            constructor
                            · intro k hk
                              exact hasStateRoot_put_mono _ _ _ hk
                            constructor
                            · left
                              simp [hasStateRoot, getRoot_put]
                            constructor
                            · intro hI
                              obtain ⟨tsas, hl, hne⟩ := hI
                              refine ⟨tsas, ?_, hne⟩
                              show (st.store.PutTipSetAndState ⟨next, root⟩).lookupTsas
                                  st.store.head = some tsas
                              rw [lookupTsas_put,
                                if_neg (by simpa using hbeq), hl]
                            · exact Or.inl rfl

theorem ancestorsFromStore_err_not_sentinel (s : Store) (ts : TipSet) (e : SyncError) :
    ancestorsFromStore s ts = .error e →
    e ≠ SyncError.errNewChainTooLong ∧ e ≠ SyncError.errChainHasBadTipSet := by
  simp only [ancestorsFromStore]
  repeat' split
  all_goals intro h
  all_goals first
    | exact Except.noConfusion h
    | (obtain rfl := (Except.error.inj h).symm
       exact ⟨by decide, by decide⟩)

theorem widen_err_not_sentinel (s : Store) (ts : TipSet) (e : SyncError) :
    widen s ts = .error e →
    e ≠ SyncError.errNewChainTooLong ∧ e ≠ SyncError.errChainHasBadTipSet := by
  simp only [widen]
  repeat' split
  all_goals intro h
  all_goals first
    | exact Except.noConfusion h
    | (obtain rfl := (Except.error.inj h).symm
       exact ⟨by decide, by decide⟩)

theorem syncTail_not_sentinel (C : Collaborators) :
    ∀ (l : List TipSet) (gp p : TipSet) (st : SyncerState),
      (syncTail C gp p l st).2 ≠ .err SyncError.errChainHasBadTipSet ∧
      (syncTail C gp p l st).2 ≠ .err SyncError.errNewChainTooLong := by
  intro l
  induction l with
  | nil =>
    intro gp p st
    exact ⟨by simp [syncTail], by simp [syncTail]⟩
  | cons ts rest ih =>
    intro gp p st
    rcases hsync : syncOne C st gp p ts with ⟨st1, r⟩
    cases r with
    | none =>
      have hred : syncTail C gp p (ts :: rest) st = syncTail C p ts rest st1 := by
        simp only [syncTail]
        rw [hsync]
      rw [hred]
      exact ih p ts st1
    | some e =>
      have hred : syncTail C gp p (ts :: rest) st =
          ({ st1 with badTipSets := addChain st1.badTipSets (ts :: rest) }, .err e) := by
        simp only [syncTail]
        rw [hsync]
      rw [hred]
      have h2 : (syncOne C st gp p ts).2 = some e := by rw [hsync]
      have hns := syncOne_err_not_sentinel C st gp p ts e h2
      exact ⟨fun hc => hns.2 ((SyncResult.err.injEq _ _).mp hc),
        fun hc => hns.1 ((SyncResult.err.injEq _ _).mp hc)⟩

theorem syncTail_ok_spec (C : Collaborators) :
    ∀ (l : List TipSet) (gp p : TipSet) (st : SyncerState),
      (syncTail C gp p l st).2 = .ok → StoreInv st.store →
      ((∀ k, hasStateRoot st.store k = true →
          hasStateRoot (syncTail C gp p l st).1.store k = true) ∧
        (∀ ts ∈ l, hasStateRoot (syncTail C gp p l st).1.store (tipKey ts) = true) ∧
        StoreInv (syncTail C gp p l st).1.store ∧
        ((syncTail C gp p l st).1.store.head = st.store.head ∨
          ∃ ts, ts ∈ l ∧ (syncTail C gp p l st).1.store.head = tipKey ts ∧
            ∃ hts aS bS, C.isHeavier ts hts aS bS = some true)) := by
  intro l
  induction l with
  | nil =>
    intro gp p st _ hI
    exact ⟨fun k hk => hk, by simp, hI, Or.inl rfl⟩
  | cons ts rest ih =>
    intro gp p st hok hI
    rcases hsync : syncOne C st gp p ts with ⟨st1, r⟩
    have h1 : (syncOne C st gp p ts).1 = st1 := by rw [hsync]
    cases r with
    | some e =>
      have hred : syncTail C gp p (ts :: rest) st =
          ({ st1 with badTipSets := addChain st1.badTipSets (ts :: rest) }, .err e) := by
        simp only [syncTail]
        rw [hsync]
      rw [hred] at hok
      exact absurd hok (by simp)
    | none =>
      have hred : syncTail C gp p (ts :: rest) st = syncTail C p ts rest st1 := by
        simp only [syncTail]
        rw [hsync]
      rw [hred] at hok ⊢
      have h2 : (syncOne C st gp p ts).2 = none := by rw [hsync]
      have hs := syncOne_ok_spec C st gp p ts h2
      rw [h1] at hs
      obtain ⟨hsMono, hsNext, hsInv, hsHead⟩ := hs
      obtain ⟨tMono, tAll, tInv, tHead⟩ := ih p ts st1 hok (hsInv hI)
      refine ⟨fun k hk => tMono k (hsMono k hk), ?_, tInv, ?_⟩
      · intro ts' hts'
        rcases List.mem_cons.mp hts' with he | hm
        · subst he
          rcases hsNext with hn | hn
          · exact tMono _ hn
          · have hr : hasStateRoot st.store (tipKey ts') = true := by
              rw [hn]
              exact storeInv_hasStateRoot hI
            exact tMono _ (hsMono _ hr)
        · exact tAll ts' hm
      · rcases tHead with th | ⟨ts', hm, hk, hsanc⟩
        · rcases hsHead with hh | ⟨hh, hsanc⟩
          · exact Or.inl (th.trans hh)
          · exact Or.inr ⟨ts, List.mem_cons_self _ _, th.trans hh, hsanc⟩
        · exact Or.inr ⟨ts', List.mem_cons_of_mem _ hm, hk, hsanc⟩

theorem handleNewTipSet_err_cases (C : Collaborators) (st : SyncerState) (ci : ChainInfo)
    (trusted : Bool) :
    ((HandleNewTipSet C st ci trusted).2 ≠ .err SyncError.errChainHasBadTipSet) ∧
    ((HandleNewTipSet C st ci trusted).2 = .err SyncError.errNewChainTooLong →
      st.store.HasTipSetAndState ci.head = false ∧ trusted = false ∧
      ∃ curHead curHeight, st.store.GetTipSet st.store.head = some curHead ∧
        tipHeight curHead = some curHeight ∧
        ExceedsUntrustedChainLength curHeight ci.height = true) := by
  simp only [HandleNewTipSet]
  split
  · exact ⟨by simp, fun h => absurd h (by simp)⟩
  next hHas =>
    split
    · exact ⟨by simp, fun h => absurd h (by simp)⟩
    next curHead hHead =>
      split
      · exact ⟨by simp, fun h => absurd h (by simp)⟩
      next curHeight hHeight =>
        split
        next hcond =>
          refine ⟨by simp, fun _ => ⟨by simpa using hHas, ?_, curHead, curHeight, hHead, hHeight, ?_⟩⟩
          · have := (Bool.and_eq_true _ _).mp hcond
            simpa using this.1
          · exact ((Bool.and_eq_true _ _).mp hcond).2
        next hcond =>
          split
          · exact ⟨by simp, fun h => absurd h (by simp)⟩
          next fetched hFetch =>
            split
            · exact ⟨by simp, fun h => absurd h (by simp)⟩
            next t0 rest hRev =>
              split
              next e hAnc =>
                have hns := ancestorsFromStore_err_not_sentinel st.store t0 e hAnc
                exact ⟨fun hc => hns.2 ((SyncResult.err.injEq _ _).mp hc),
                  fun hc => absurd ((SyncResult.err.injEq _ _).mp hc) hns.1⟩
              next parent grandParent hAnc =>
                split
                next e hWiden =>
                  have hns := widen_err_not_sentinel st.store t0 e hWiden
                  exact ⟨fun hc => hns.2 ((SyncResult.err.injEq _ _).mp hc),
                    fun hc => absurd ((SyncResult.err.injEq _ _).mp hc) hns.1⟩
                next wts hWiden =>
                  split
                  next st1 e hif =>
                    have he : e ≠ SyncError.errNewChainTooLong ∧
                        e ≠ SyncError.errChainHasBadTipSet := by
                      by_cases hd : TipSet.Defined wts = true
                      · rw [if_pos hd] at hif
                        exact syncOne_err_not_sentinel C st grandParent parent wts e
                          (by rw [hif])
                      · rw [if_neg hd] at hif
                        exact absurd (congrArg Prod.snd hif) (by simp)
                    exact ⟨fun hc => he.2 ((SyncResult.err.injEq _ _).mp hc),
                      fun hc => absurd ((SyncResult.err.injEq _ _).mp hc) he.1⟩
                  next st1 hif =>
                    split
                    · have hns := syncTail_not_sentinel C rest parent t0 st1
                      exact ⟨hns.1, fun hc => absurd hc hns.2⟩
                    · split
                      next st2 e hs2 =>
                        have hns := syncOne_err_not_sentinel C st1 grandParent parent t0 e
                          (by rw [hs2])
                        exact ⟨fun hc => hns.2 ((SyncResult.err.injEq _ _).mp hc),
                          fun hc => absurd ((SyncResult.err.injEq _ _).mp hc) hns.1⟩
                      next st2 hs2 =>
                        have hns := syncTail_not_sentinel C rest parent t0 st2
                        exact ⟨hns.1, fun hc => absurd hc hns.2⟩

/-! ## Claims C7, C8, C3 -/

/-- Claim C7: a `HandleNewTipSet` call whose head is not already stored fails
with `ErrNewChainTooLong` exactly when it is untrusted and the declared height
strictly exceeds the current head height plus `UntrustedChainHeightLimit`
(600); equality is not rejected and trusted calls are never rejected for
length. -/
theorem handleNewTipSet_chainTooLong_iff (C : Collaborators) (st : SyncerState) (ci : ChainInfo)
    (trusted : Bool) (curHead : TipSet) (curHeight : Nat)
    (hAbsent : st.store.HasTipSetAndState ci.head = false)
    (hHead : st.store.GetTipSet st.store.head = some curHead)
    (hHeight : tipHeight curHead = some curHeight) :
    ((HandleNewTipSet C st ci trusted).2 = .err SyncError.errNewChainTooLong ↔
      (trusted = false ∧ curHeight + UntrustedChainHeightLimit < ci.height)) ∧
    (ci.height = curHeight + UntrustedChainHeightLimit →
      (HandleNewTipSet C st ci trusted).2 ≠ .err SyncError.errNewChainTooLong) ∧
    (trusted = true →
      (HandleNewTipSet C st ci trusted).2 ≠ .err SyncError.errNewChainTooLong) := by
  have hiff : (HandleNewTipSet C st ci trusted).2 = .err SyncError.errNewChainTooLong ↔
      (trusted = false ∧ curHeight + UntrustedChainHeightLimit < ci.height) := by
    constructor
    · intro h
      obtain ⟨_, htr, ch, chh, hH, hHh, hex⟩ := (handleNewTipSet_err_cases C st ci trusted).2 h
      obtain rfl : curHead = ch := Option.some.inj (hHead.symm.trans hH)
      obtain rfl : curHeight = chh := Option.some.inj (hHeight.symm.trans hHh)
      refine ⟨htr, ?_⟩
      simpa [ExceedsUntrustedChainLength] using hex
    · rintro ⟨htr, hlt⟩
      subst htr
      have hex : ExceedsUntrustedChainLength curHeight ci.height = true := by
        simp [ExceedsUntrustedChainLength]
        omega
      have hred : HandleNewTipSet C st ci false = (st, .err SyncError.errNewChainTooLong) := by
        simp only [HandleNewTipSet, hAbsent, hHead, hHeight, hex]
        simp
      rw [hred]
  refine ⟨hiff, ?_, ?_⟩
  · intro heq hc
    obtain ⟨_, hlt⟩ := hiff.mp hc
    omega
  · intro htr hc
    obtain ⟨hf, _⟩ := hiff.mp hc
    rw [htr] at hf
    exact Bool.noConfusion hf

/-- Witness for C7: from a genesis-only store (head height 0), an untrusted
declared head at height 601 is rejected as too long. -/
theorem handleNewTipSet_chainTooLong_iff_witness :
    stateGenesisOnly.store.HasTipSetAndState (tipKey [blockNew]) = false ∧
    stateGenesisOnly.store.GetTipSet stateGenesisOnly.store.head = some genesisTs ∧
    tipHeight genesisTs = some 0 ∧
    ((HandleNewTipSet collabFailEval stateGenesisOnly ⟨tipKey [blockNew], 601⟩ false).2 =
        .err SyncError.errNewChainTooLong ↔
      (false = false ∧ 0 + UntrustedChainHeightLimit < 601)) :=
  ⟨rfl, rfl, rfl,
    (handleNewTipSet_chainTooLong_iff collabFailEval stateGenesisOnly
      ⟨tipKey [blockNew], 601⟩ false genesisTs 0 rfl rfl rfl).1⟩

/-- Claim C8: when the fetcher returns successfully with an empty tipset
sequence, `HandleNewTipSet` indexes `chain[0]` with no emptiness check, so the
call is the index-out-of-range runtime panic rather than any typed error. -/
theorem handleNewTipSet_empty_fetch_panics (C : Collaborators) (st : SyncerState)
    (ci : ChainInfo) (trusted : Bool) (curHead : TipSet) (curHeight : Nat)
    (hAbsent : st.store.HasTipSetAndState ci.head = false)
    (hHead : st.store.GetTipSet st.store.head = some curHead)
    (hHeight : tipHeight curHead = some curHeight)
    (hGuard : (!trusted && ExceedsUntrustedChainLength curHeight ci.height) = false)
    (hFetch : C.fetchTipSets ci.head = some []) :
    HandleNewTipSet C st ci trusted = (st, .indexOutOfRange) := by
  simp only [HandleNewTipSet, hAbsent, hHead, hHeight, hGuard, hFetch]
  simp

/-- Witness for C8: a concrete run with an empty fetch result panics. -/
theorem handleNewTipSet_empty_fetch_panics_witness :
    stateGenesisOnly.store.HasTipSetAndState (tipKey [blockNew]) = false ∧
    stateGenesisOnly.store.GetTipSet stateGenesisOnly.store.head = some genesisTs ∧
    tipHeight genesisTs = some 0 ∧
    (!true && ExceedsUntrustedChainLength 0 ciNew.height) = false ∧
    collabEmptyFetch.fetchTipSets ciNew.head = some [] ∧
    HandleNewTipSet collabEmptyFetch stateGenesisOnly ciNew true =
      (stateGenesisOnly, .indexOutOfRange) :=
  ⟨rfl, rfl, rfl, rfl, rfl,
    handleNewTipSet_empty_fetch_panics collabEmptyFetch stateGenesisOnly ciNew true
      genesisTs 0 rfl rfl rfl rfl rfl⟩

/-- Claim C3 (code bug): `HandleNewTipSet` never consults the bad-tipset cache
and never returns `ErrChainHasBadTipSet` (the error is declared but unused);
concretely, after a failed call poisons the cache, a second call over the same
chain re-runs the state transition and returns the evaluator's error again
instead of rejecting the cached bad tipset. -/
theorem handleNewTipSet_never_rejects_cached_bad :
    (∀ (C : Collaborators) (st : SyncerState) (ci : ChainInfo) (trusted : Bool),
      (HandleNewTipSet C st ci trusted).2 ≠ .err SyncError.errChainHasBadTipSet) ∧
    (HandleNewTipSet collabFailEval stateGenesisOnly ciNew true).1.badTipSets =
      [tipKey [blockNew]] ∧
    (HandleNewTipSet collabFailEval stateGenesisOnly ciNew true).2 =
      .err SyncError.stateTransitionFailed ∧
    (HandleNewTipSet collabFailEval
        (HandleNewTipSet collabFailEval stateGenesisOnly ciNew true).1 ciNew true).2 =
      .err SyncError.stateTransitionFailed :=
  ⟨fun C st ci trusted => (handleNewTipSet_err_cases C st ci trusted).1, rfl, rfl, rfl⟩

/-! ## Claim C2 -/

/-- Claim C2 (amended): when `syncOne` fails on the widened tipset produced
for the first fetched tipset, `HandleNewTipSet` returns that error with the
bad-tipset cache unchanged — chain[i:] is not poisoned, unlike a failure of
`syncOne` on a non-widened chain tipset, which adds every remaining tipset's
key to the cache. -/
theorem handleNewTipSet_widen_failure_no_poison (C : Collaborators) (st : SyncerState)
    (ci : ChainInfo) (trusted : Bool) (curHead : TipSet) (curHeight : Nat)
    (fetched : List TipSet) (t0 : TipSet) (rest : List TipSet)
    (parent grandParent wts : TipSet)
    (hAbsent : st.store.HasTipSetAndState ci.head = false)
    (hHead : st.store.GetTipSet st.store.head = some curHead)
    (hHeight : tipHeight curHead = some curHeight)
    (hGuard : (!trusted && ExceedsUntrustedChainLength curHeight ci.height) = false)
    (hFetch : C.fetchTipSets ci.head = some fetched)
    (hRev : fetched.reverse = t0 :: rest)
    (hAnc : ancestorsFromStore st.store t0 = .ok (parent, grandParent))
    (hWiden : widen st.store t0 = .ok wts) :
    (TipSet.Defined wts = true →
      ∀ st1 e, syncOne C st grandParent parent wts = (st1, some e) →
        HandleNewTipSet C st ci trusted = (st1, .err e) ∧
        st1.badTipSets = st.badTipSets) ∧
    (TipSet.Defined wts = false →
      ∀ st2 e, syncOne C st grandParent parent t0 = (st2, some e) →
        HandleNewTipSet C st ci trusted =
          ({ st2 with badTipSets := addChain st2.badTipSets (t0 :: rest) }, .err e)) := by
  constructor
  · intro hd st1 e hs1
    constructor
    · simp only [HandleNewTipSet, hAbsent, hHead, hHeight, hGuard, hFetch, hRev, hAnc,
        hWiden, hd, if_true, hs1]
      simp
    · have hb := syncOne_badTipSets C st grandParent parent wts
      rw [hs1] at hb
      exact hb
  · intro hd st2 e hs2
    simp only [HandleNewTipSet, hAbsent, hHead, hHeight, hGuard, hFetch, hRev, hAnc,
      hWiden, hd, if_false]
    simp only [Bool.false_eq_true, if_false, Bool.false_and]
    rw [hs2]

/-- Witness for C2 (amended): the concrete scenario in which the evaluator
rejects exactly the widened two-block tipset; the call returns the evaluator's
error and the cache stays empty. -/
theorem handleNewTipSet_widen_failure_no_poison_witness :
    TipSet.Defined [blockNew, blockSibling] = true ∧
    (HandleNewTipSet collabFailWidened stateWithSibling ciNew true =
      ((HandleNewTipSet collabFailWidened stateWithSibling ciNew true).1,
        .err SyncError.stateTransitionFailed) ∧
      (HandleNewTipSet collabFailWidened stateWithSibling ciNew true).1.badTipSets =
        stateWithSibling.badTipSets) :=
  ⟨rfl,
    (handleNewTipSet_widen_failure_no_poison collabFailWidened stateWithSibling ciNew true
      genesisTs 0 [[blockNew]] [blockNew] [] genesisTs UndefTipSet [blockNew, blockSibling]
      rfl rfl rfl rfl rfl rfl rfl rfl).1 rfl
      (HandleNewTipSet collabFailWidened stateWithSibling ciNew true).1
      SyncError.stateTransitionFailed rfl⟩

/-- Counterexample to C2 as stated: in that scenario the call fails on the
widened tipset with the evaluator's error, yet the bad-tipset cache is empty
afterwards — the key of `chain[0]` (the only tipset of the fetched chain) was
not added. -/
theorem widen_failure_cache_not_poisoned :
    (HandleNewTipSet collabFailWidened stateWithSibling ciNew true).2 =
      .err SyncError.stateTransitionFailed ∧
    (HandleNewTipSet collabFailWidened stateWithSibling ciNew true).1.badTipSets = [] ∧
    ¬ tipKey [blockNew] ∈
      (HandleNewTipSet collabFailWidened stateWithSibling ciNew true).1.badTipSets :=
  ⟨rfl, rfl, by decide⟩

theorem syncEvolution_trans {C : Collaborators} {cand : TipSet → Prop} {s m m' : Store}
    (h1 : SyncEvolution C cand s m) (h2 : SyncEvolution C cand m m') :
    SyncEvolution C cand s m' := by
  induction h2 with
  | refl => exact h1
  | put mid tsas hch hcand ih => exact SyncEvolution.put _ _ _ ih hcand
  | update mid ts root hts aS bS hch hcand hne hlook hheavy ih =>
    exact SyncEvolution.update _ _ _ _ _ _ _ ih hcand hne hlook hheavy

theorem syncEvolution_mono {C : Collaborators} {cand cand' : TipSet → Prop}
    (hsub : ∀ t, cand t → cand' t) :
    ∀ {s m : Store}, SyncEvolution C cand s m → SyncEvolution C cand' s m := by
  intro s m h
  induction h with
  | refl => exact SyncEvolution.refl _
  | put mid tsas hch hcand ih => exact SyncEvolution.put _ _ _ ih (hsub _ hcand)
  | update mid ts root hts aS bS hch hcand hne hlook hheavy ih =>
    exact SyncEvolution.update _ _ _ _ _ _ _ ih (hsub _ hcand) hne hlook hheavy

theorem syncEvolution_head_cases {C : Collaborators} {cand : TipSet → Prop} {s m : Store}
    (h : SyncEvolution C cand s m) :
    m.head = s.head ∨ ∃ ts, cand ts ∧ m.head = tipKey ts := by
  induction h with
  | refl => exact Or.inl rfl
  | put mid tsas hch hcand ih => exact ih
  | update mid ts root hts aS bS hch hcand hne hlook hheavy ih =>
    exact Or.inr ⟨ts, hcand, rfl⟩

theorem syncOne_evolution (C : Collaborators) (st : SyncerState) (gp p next : TipSet) :
    (syncOne C st gp p next).2 = none →
    SyncEvolution C (fun t => t = next) st.store (syncOne C st gp p next).1.store := by
  simp only [syncOne]
  split
  case isTrue hbeq =>
    intro _
    exact SyncEvolution.refl _
  case isFalse hbeq =>
    split
    case h_1 => intro h; exact absurd h (by simp)
    case h_2 stateRoot hroot =>
      split
      case h_1 => intro h; exact absurd h (by simp)
      case h_2 hgot hheight =>
        split
        case h_1 => intro h; exact absurd h (by simp)
        case h_2 ancestors hanc =>
          split
          case h_1 => intro h; exact absurd h (by simp)
          case h_2 gathered hgath =>
            split
            case h_1 => intro h; exact absurd h (by simp)
            case h_2 parentWeight hweight =>
              split
              case h_1 => intro h; exact absurd h (by simp)
              case h_2 root hrun =>
                split
                case h_1 => intro h; exact absurd h (by simp)
                case h_2 nextParentStateID hnps =>
                  split
                  case h_1 => intro h; exact absurd h (by simp)
                  case h_2 headTipSet hhts =>
                    split
                    case h_1 => intro h; exact absurd h (by simp)
                    case h_2 headParentKey hhpk =>
                      split
                      case h_1 => intro h; exact absurd h (by simp)
                      case h_2 headParentStateID hhps =>
                        split
                        case h_1 => intro h; exact absurd h (by simp)
                        case h_2 heavier hheavy =>
                          split
                          case isTrue hcond =>
                            intro _
                            exact SyncEvolution.update st.store st.store next root
                              headTipSet (some nextParentStateID) headParentStateID
                              (SyncEvolution.refl _) rfl (by simpa using hbeq) hhts
                              (by rw [← hcond]; exact hheavy)
                          case isFalse hcond =>
                            intro _
                            exact SyncEvolution.put st.store st.store ⟨next, root⟩
                              (SyncEvolution.refl _) rfl

theorem syncTail_evolution (C : Collaborators) :
    ∀ (l : List TipSet) (gp p : TipSet) (st : SyncerState),
      (syncTail C gp p l st).2 = .ok →
      SyncEvolution C (fun t => t ∈ l) st.store (syncTail C gp p l st).1.store := by
  intro l
  induction l with
  | nil =>
    intro gp p st _
    exact SyncEvolution.refl _
  | cons ts rest ih =>
    intro gp p st hok
    rcases hsync : syncOne C st gp p ts with ⟨st1, r⟩
    cases r with
    | some e =>
      have hred : syncTail C gp p (ts :: rest) st =
          ({ st1 with badTipSets := addChain st1.badTipSets (ts :: rest) }, .err e) := by
        simp only [syncTail]
        rw [hsync]
      rw [hred] at hok
      exact absurd hok (by simp)
    | none =>
      have hred : syncTail C gp p (ts :: rest) st = syncTail C p ts rest st1 := by
        simp only [syncTail]
        rw [hsync]
      rw [hred] at hok ⊢
      have h1 := syncOne_evolution C st gp p ts (by rw [hsync])
      rw [show (syncOne C st gp p ts).1 = st1 from by rw [hsync]] at h1
      have h2 := ih p ts st1 hok
      exact syncEvolution_trans
        (syncEvolution_mono (fun t ht => ht ▸ List.mem_cons_self _ _) h1)
        (syncEvolution_mono (fun t ht => List.mem_cons_of_mem _ ht) h2)

/-! ## Claim C1 -/

/-- Claim C1 (amended): after a successful `HandleNewTipSet` that fetched the
chain `t0 :: rest`, every fetched tipset is stored with a state root except
the non-widened first tipset when the chain has exactly one tipset and
widening succeeded (the skip optimization); the widened tipset, when defined,
is stored with a state root; the store invariant holds and the head is stored
with a state root; and the head is the tipset among the fetched and widened
tipsets deemed heaviest by `ChainSelector.IsHeavier` relative to the prior
head: the store evolves from the prior store only by puts of fetched or
widened tipsets and by head updates in which the selector deemed the new
tipset heavier than the tipset stored at the then-current head key
(`SyncEvolution`), so the final head is the prior head or the key of the
fetched or widened tipset the sequential comparisons selected. -/
theorem handleNewTipSet_ok_store_and_head (C : Collaborators) (st : SyncerState)
    (ci : ChainInfo) (trusted : Bool) (st' : SyncerState) (fetched : List TipSet)
    (t0 : TipSet) (rest : List TipSet)
    (hInv : StoreInv st.store)
    (hAbsent : st.store.HasTipSetAndState ci.head = false)
    (hFetch : C.fetchTipSets ci.head = some fetched)
    (hRev : fetched.reverse = t0 :: rest)
    (hOk : HandleNewTipSet C st ci trusted = (st', .ok)) :
    (∀ ts ∈ t0 :: rest, hasStateRoot st'.store (tipKey ts) = true ∨
      (rest = [] ∧ ts = t0 ∧
        ∃ wts, widen st.store t0 = .ok wts ∧ TipSet.Defined wts = true)) ∧
    (∀ wts, widen st.store t0 = .ok wts → TipSet.Defined wts = true →
      hasStateRoot st'.store (tipKey wts) = true) ∧
    StoreInv st'.store ∧ hasStateRoot st'.store st'.store.head = true ∧
    SyncEvolution C
      (fun ts => ts ∈ t0 :: rest ∨
        (widen st.store t0 = .ok ts ∧ TipSet.Defined ts = true))
      st.store st'.store ∧
    (st'.store.head = st.store.head ∨
      ∃ ts, (ts ∈ t0 :: rest ∨ widen st.store t0 = .ok ts) ∧
        st'.store.head = tipKey ts) := by
  obtain ⟨tsas, hl, hne⟩ := hInv
  have hInv' : StoreInv st.store := ⟨tsas, hl, hne⟩
  have hHead : st.store.GetTipSet st.store.head = some tsas.tipSet := by
    simp [Store.GetTipSet, hl]
  obtain ⟨b0, bs, hbs⟩ : ∃ b0 bs, tsas.tipSet = b0 :: bs := by
    cases hts : tsas.tipSet with
    | nil => exact absurd hts hne
    | cons b0 bs => exact ⟨b0, bs, rfl⟩
  have hHeight : tipHeight tsas.tipSet = some b0.height := by rw [hbs]; rfl
  by_cases hguard : (!trusted && ExceedsUntrustedChainLength b0.height ci.height) = true
  · have hred : HandleNewTipSet C st ci trusted = (st, .err SyncError.errNewChainTooLong) := by
      simp only [HandleNewTipSet, hAbsent, hHead, hHeight, hguard]
      simp
    rw [hred] at hOk
    have h2 := congrArg Prod.snd hOk
    simp at h2
  · replace hguard : (!trusted && ExceedsUntrustedChainLength b0.height ci.height) = false := by
      simpa using hguard
    simp only [HandleNewTipSet, hAbsent, hHead, hHeight, hguard, hFetch, hRev,
      Bool.false_eq_true, if_false] at hOk
    cases hAnc : ancestorsFromStore st.store t0 with
    | error e =>
      simp only [hAnc] at hOk
      have h2 := congrArg Prod.snd hOk
      simp at h2
    | ok pg =>
      obtain ⟨parent, grandParent⟩ := pg
      simp only [hAnc] at hOk
      cases hWiden : widen st.store t0 with
      | error e =>
        simp only [hWiden] at hOk
        have h2 := congrArg Prod.snd hOk
        simp at h2
      | ok wts =>
        simp only [hWiden] at hOk
        by_cases hd : TipSet.Defined wts = true
        · rcases hsw : syncOne C st grandParent parent wts with ⟨st1, r1⟩
          cases r1 with
          | some e =>
            simp only [hd, if_true, hsw] at hOk
            have h2 := congrArg Prod.snd hOk
            simp at h2
          | none =>
            simp only [hd, if_true, hsw] at hOk
            have hspec1 := syncOne_ok_spec C st grandParent parent wts (by rw [hsw])
            rw [show (syncOne C st grandParent parent wts).1 = st1 by rw [hsw]] at hspec1
            obtain ⟨m1, n1, i1, _⟩ := hspec1
            have hev1 := syncOne_evolution C st grandParent parent wts (by rw [hsw])
            rw [show (syncOne C st grandParent parent wts).1 = st1 by rw [hsw]] at hev1
            have hev1' : SyncEvolution C
                (fun ts => ts ∈ t0 :: rest ∨
                  ((Except.ok wts : Except SyncError TipSet) = Except.ok ts ∧
                    TipSet.Defined ts = true))
                st.store st1.store :=
              syncEvolution_mono
                (fun t ht => by
                  subst ht
                  show t ∈ t0 :: rest ∨
                    ((Except.ok t : Except SyncError TipSet) = Except.ok t ∧
                      TipSet.Defined t = true)
                  exact Or.inr ⟨rfl, hd⟩) hev1
            have hwtsRoot : hasStateRoot st1.store (tipKey wts) = true := by
              rcases n1 with hn | hn
              · exact hn
              · have hr : hasStateRoot st.store (tipKey wts) = true := by
                  rw [hn]
                  exact storeInv_hasStateRoot hInv'
                exact m1 _ hr
            by_cases hre : rest.isEmpty = true
            · obtain rfl : rest = [] := List.isEmpty_iff.mp hre
              simp only [List.isEmpty_nil, Bool.and_true, hd, if_true, syncTail] at hOk
              injection hOk with ha _
              subst ha
              refine ⟨?_, ?_, i1 hInv', storeInv_hasStateRoot (i1 hInv'), hev1', ?_⟩
              · intro ts hts
                rcases List.mem_cons.mp hts with he | hm
                · exact Or.inr ⟨rfl, he, wts, rfl, hd⟩
                · exact absurd hm (List.not_mem_nil _)
              · intro wts' hw' hd'
                obtain rfl : wts = wts' := Except.ok.inj hw'
                exact hwtsRoot
              · rcases syncEvolution_head_cases hev1' with hh | ⟨ts, hc, hk⟩
                · exact Or.inl hh
                · rcases hc with hm | ⟨hw2, _⟩
                  · exact Or.inr ⟨ts, Or.inl hm, hk⟩
                  · exact Or.inr ⟨ts, Or.inr hw2, hk⟩
            · replace hre : rest.isEmpty = false := by simpa using hre
              simp only [hre, Bool.and_false, Bool.false_eq_true, if_false] at hOk
              rcases hs0 : syncOne C st1 grandParent parent t0 with ⟨st2, r2⟩
              cases r2 with
              | some e =>
                simp only [hs0] at hOk
                have h2 := congrArg Prod.snd hOk
                simp at h2
              | none =>
                simp only [hs0] at hOk
                have hspec2 := syncOne_ok_spec C st1 grandParent parent t0 (by rw [hs0])
                rw [show (syncOne C st1 grandParent parent t0).1 = st2 by rw [hs0]] at hspec2
                obtain ⟨m2, n2, i2, _⟩ := hspec2
                have hev2 := syncOne_evolution C st1 grandParent parent t0 (by rw [hs0])
                rw [show (syncOne C st1 grandParent parent t0).1 = st2 by rw [hs0]] at hev2
                have ht0Root : hasStateRoot st2.store (tipKey t0) = true := by
                  rcases n2 with hn | hn
                  · exact hn
                  · have hr : hasStateRoot st1.store (tipKey t0) = true := by
                      rw [hn]
                      exact storeInv_hasStateRoot (i1 hInv')
                    exact m2 _ hr
                have htails : (syncTail C parent t0 rest st2).2 = SyncResult.ok := by
                  rw [hOk]
                obtain ⟨tMono, tAll, tInv, _⟩ :=
                  syncTail_ok_spec C rest parent t0 st2 htails (i2 (i1 hInv'))
                have hev3 := syncTail_evolution C rest parent t0 st2 htails
                have hfst : (syncTail C parent t0 rest st2).1 = st' := congrArg Prod.fst hOk
                rw [hfst] at tMono tAll tInv hev3
                have hev : SyncEvolution C
                    (fun ts => ts ∈ t0 :: rest ∨
                      ((Except.ok wts : Except SyncError TipSet) = Except.ok ts ∧
                        TipSet.Defined ts = true))
                    st.store st'.store :=
                  syncEvolution_trans
                    (syncEvolution_trans hev1'
                      (syncEvolution_mono
                        (fun t ht => Or.inl (ht ▸ List.mem_cons_self _ _)) hev2))
                    (syncEvolution_mono
                      (fun t ht => Or.inl (List.mem_cons_of_mem _ ht)) hev3)
                refine ⟨?_, ?_, tInv, storeInv_hasStateRoot tInv, hev, ?_⟩
                · intro ts hts
                  rcases List.mem_cons.mp hts with he | hm
                  · subst he
                    exact Or.inl (tMono _ ht0Root)
                  · exact Or.inl (tAll ts hm)
                · intro wts' hw' hd'
                  obtain rfl : wts = wts' := Except.ok.inj hw'
                  exact tMono _ (m2 _ hwtsRoot)
                · rcases syncEvolution_head_cases hev with hh | ⟨ts, hc, hk⟩
                  · exact Or.inl hh
                  · rcases hc with hm | ⟨hw2, _⟩
                    · exact Or.inr ⟨ts, Or.inl hm, hk⟩
                    · exact Or.inr ⟨ts, Or.inr hw2, hk⟩
        · replace hd : TipSet.Defined wts = false := by simpa using hd
          simp only [hd, Bool.false_eq_true, if_false, Bool.false_and] at hOk
          rcases hs0 : syncOne C st grandParent parent t0 with ⟨st2, r2⟩
          cases r2 with
          | some e =>
            simp only [hs0] at hOk
            have h2 := congrArg Prod.snd hOk
            simp at h2
          | none =>
            simp only [hs0] at hOk
            have hspec2 := syncOne_ok_spec C st grandParent parent t0 (by rw [hs0])
            rw [show (syncOne C st grandParent parent t0).1 = st2 by rw [hs0]] at hspec2
            obtain ⟨m2, n2, i2, _⟩ := hspec2
            have hev2 := syncOne_evolution C st grandParent parent t0 (by rw [hs0])
            rw [show (syncOne C st grandParent parent t0).1 = st2 by rw [hs0]] at hev2
            have ht0Root : hasStateRoot st2.store (tipKey t0) = true := by
              rcases n2 with hn | hn
              · exact hn
              · have hr : hasStateRoot st.store (tipKey t0) = true := by
                  rw [hn]
                  exact storeInv_hasStateRoot hInv'
                exact m2 _ hr
            have htails : (syncTail C parent t0 rest st2).2 = SyncResult.ok := by
              rw [hOk]
            obtain ⟨tMono, tAll, tInv, _⟩ :=
              syncTail_ok_spec C rest parent t0 st2 htails (i2 hInv')
            have hev3 := syncTail_evolution C rest parent t0 st2 htails
            have hfst : (syncTail C parent t0 rest st2).1 = st' := congrArg Prod.fst hOk
            rw [hfst] at tMono tAll tInv hev3
            have hev : SyncEvolution C
                (fun ts => ts ∈ t0 :: rest ∨
                  ((Except.ok wts : Except SyncError TipSet) = Except.ok ts ∧
                    TipSet.Defined ts = true))
                st.store st'.store :=
              syncEvolution_trans
                (syncEvolution_mono
                  (fun t ht => Or.inl (ht ▸ List.mem_cons_self _ _)) hev2)
                (syncEvolution_mono
                  (fun t ht => Or.inl (List.mem_cons_of_mem _ ht)) hev3)
            refine ⟨?_, ?_, tInv, storeInv_hasStateRoot tInv, hev, ?_⟩
            · intro ts hts
              rcases List.mem_cons.mp hts with he | hm
              · subst he
                exact Or.inl (tMono _ ht0Root)
              · exact Or.inl (tAll ts hm)
            · intro wts' hw' hd'
              obtain rfl : wts = wts' := Except.ok.inj hw'
              rw [hd'] at hd
              exact Bool.noConfusion hd
            · rcases syncEvolution_head_cases hev with hh | ⟨ts, hc, hk⟩
              · exact Or.inl hh
              · rcases hc with hm | ⟨hw2, _⟩
                · exact Or.inr ⟨ts, Or.inl hm, hk⟩
                · exact Or.inr ⟨ts, Or.inr hw2, hk⟩

/-- Witness for C1 (amended): the concrete successful run in which the store
holds a sibling of the fetched tipset, widening succeeds, and the widened
tipset becomes the head after a sanctioned update. -/
theorem handleNewTipSet_ok_store_and_head_witness :
    StoreInv stateWithSibling.store ∧
    ((∀ ts ∈ [blockNew] :: ([] : List TipSet),
        hasStateRoot (HandleNewTipSet collabOk stateWithSibling ciNew true).1.store
          (tipKey ts) = true ∨
        (([] : List TipSet) = [] ∧ ts = [blockNew] ∧
          ∃ wts, widen stateWithSibling.store [blockNew] = .ok wts ∧
            TipSet.Defined wts = true)) ∧
      (∀ wts, widen stateWithSibling.store [blockNew] = .ok wts →
        TipSet.Defined wts = true →
        hasStateRoot (HandleNewTipSet collabOk stateWithSibling ciNew true).1.store
          (tipKey wts) = true) ∧
      StoreInv (HandleNewTipSet collabOk stateWithSibling ciNew true).1.store ∧
      hasStateRoot (HandleNewTipSet collabOk stateWithSibling ciNew true).1.store
        (HandleNewTipSet collabOk stateWithSibling ciNew true).1.store.head = true ∧
      SyncEvolution collabOk
        (fun ts => ts ∈ [blockNew] :: ([] : List TipSet) ∨
          (widen stateWithSibling.store [blockNew] = .ok ts ∧ TipSet.Defined ts = true))
        stateWithSibling.store
        (HandleNewTipSet collabOk stateWithSibling ciNew true).1.store ∧
      ((HandleNewTipSet collabOk stateWithSibling ciNew true).1.store.head =
          stateWithSibling.store.head ∨
        ∃ ts, (ts ∈ [blockNew] :: ([] : List TipSet) ∨
            widen stateWithSibling.store [blockNew] = .ok ts) ∧
          (HandleNewTipSet collabOk stateWithSibling ciNew true).1.store.head =
            tipKey ts)) :=
  ⟨⟨⟨genesisTs, 50⟩, rfl, by decide⟩,
    handleNewTipSet_ok_store_and_head collabOk stateWithSibling ciNew true
      (HandleNewTipSet collabOk stateWithSibling ciNew true).1 [[blockNew]] [blockNew] []
      ⟨⟨genesisTs, 50⟩, rfl, by decide⟩ rfl rfl rfl rfl⟩

/-- Counterexample to C1 as stated: a successful call over a one-tipset chain
whose widening succeeded leaves the fetched tipset itself without a stored
state root — only the widened superset (which became the head) is stored. -/
theorem skipped_original_not_stored :
    (HandleNewTipSet collabOk stateWithSibling ciNew true).2 = SyncResult.ok ∧
    Store.GetTipSetStateRoot (HandleNewTipSet collabOk stateWithSibling ciNew true).1.store
      (tipKey [blockNew]) = none ∧
    Store.GetTipSetStateRoot (HandleNewTipSet collabOk stateWithSibling ciNew true).1.store
      (tipKey [blockNew, blockSibling]) = some 42 :=
  ⟨rfl, rfl, rfl⟩

end GoFilecoin
